import Mathlib

/-!
Shallow embedding of the `dex_aggregator` contract
(`src/contracts/dex_aggregator/src/{reply.rs, execute.rs}`) for checking the
natural-language specification against the code.

Modelling conventions:
* `Uint128` amounts are modelled as `Nat`.  CosmWasm `Uint128` arithmetic
  aborts on overflow rather than wrapping, so theorems carry explicit
  `... ≤ u128Max` hypotheses wherever an overflow would make the code abort
  instead of producing the modelled value.  Explicit `checked_sub` calls in
  the source are modelled as explicit checks returning an error.
* `u8` / `u64` arithmetic is checked (the spec, section 7, states arithmetic
  overflow is raised rather than silently wrapping; the crate's profile is
  not part of the sources under inspection).  Checked failures surface as
  `ContractError.overflow`.
* Storage (`EXECUTION_STATES`, `ROUTE_PLANS`) is modelled as association
  lists keyed by the execution id; `load` of a missing key is
  `ContractError.notFound` (the `StdError::NotFound` the storage layer
  raises).
* `deps.api.addr_validate` is modelled as the identity (no claim exercises
  bech32 validity), and the order-book simulation query is an oracle
  function supplied through `Deps`.
* Recursion between `proceed_to_next_step` and `execute_planned_swaps` is
  bounded in the source by the number of remaining stages; the embedding
  adds an explicit fuel parameter, with `ContractError.outOfFuel` as the
  (unreachable for sufficient fuel) exhaustion marker.
-/

deriving instance DecidableEq for Except

namespace DexAgg

/-- `u128::MAX`, the bound of CosmWasm `Uint128`. -/
def u128Max : Nat := 2 ^ 128 - 1

/-- `external::AssetInfo` from `msg.rs`: native denom or CW20 token address. -/
inductive AssetInfo
  | nativeToken (denom : String)
  | token (contract_addr : String)
deriving DecidableEq

/-- Whether an `AssetInfo` is the native (bank) representation. -/
def AssetInfo.isNative : AssetInfo → Bool
  | .nativeToken _ => true
  | .token _ => false

/-- `external::Asset` from `msg.rs`. -/
structure Asset where
  info : AssetInfo
  amount : Nat
deriving DecidableEq

/-- `AmmSwapOp` from `msg.rs`. -/
structure AmmSwapOp where
  pool_address : String
  offer_asset_info : AssetInfo
  ask_asset_info : AssetInfo
deriving DecidableEq

/-- `OrderbookSwapOp` from `msg.rs`, with the `min_quantity_tick_size`
field required by `create_swap_cosmos_msg` in `execute.rs`. -/
structure OrderbookSwapOp where
  swap_contract : String
  offer_asset_info : AssetInfo
  ask_asset_info : AssetInfo
  min_quantity_tick_size : Nat
deriving DecidableEq

/-- `Operation` from `msg.rs`. -/
inductive Operation
  | ammSwap (o : AmmSwapOp)
  | orderbookSwap (o : OrderbookSwapOp)
deriving DecidableEq

/-- `Split` as used by `reply.rs`: a chain (`path`) of operations and a
percentage of the stage input (a `u8` in the source). -/
structure Split where
  path : List Operation
  percent : Nat
deriving DecidableEq

/-- `Stage` from `msg.rs`. -/
structure Stage where
  splits : List Split
deriving DecidableEq

/-- `PlannedSwap` from `msg.rs`. -/
structure PlannedSwap where
  operation : Operation
  amount : Nat
deriving DecidableEq

/-- `StagePlan` from `msg.rs`. -/
structure StagePlan where
  swaps_to_execute : List PlannedSwap
  conversions_needed : List (Asset × AssetInfo)
deriving DecidableEq

/-- The `ContractError` variants reachable from the embedded functions
(`error.rs` plus the variants `reply.rs` constructs), together with the
two modelling markers `overflow` (checked arithmetic abort) and
`outOfFuel` (fuel exhaustion of the bounded recursion). -/
inductive ContractError
  | std (msg : String)
  | zeroAmount
  | noStages
  | invalidPercentageSum
  | emptyRoute
  | minimumReceiveNotMet
  | submessageResultError (error : String)
  | malformedAmountInReply (value : String)
  | noAmountInReply
  | noConversionEventInReply
  | overflow
  | notFound
  | outOfFuel
deriving DecidableEq

/-- `get_operation_input` from `reply.rs` (the `Result` in the source is
always `Ok`). -/
def get_operation_input : Operation → AssetInfo
  | .ammSwap o => o.offer_asset_info
  | .orderbookSwap o => o.offer_asset_info

/-- `get_operation_output` from `reply.rs`. -/
def get_operation_output : Operation → AssetInfo
  | .ammSwap o => o.ask_asset_info
  | .orderbookSwap o => o.ask_asset_info

/-- `get_operation_address` from `reply.rs`. -/
def get_operation_address : Operation → String
  | .ammSwap o => o.pool_address
  | .orderbookSwap o => o.swap_contract

/-- `Uint128::multiply_ratio`: full-width multiply then truncating divide.
(The source panics when the result exceeds `u128::MAX`; theorems bound the
operands so that this cannot happen.) -/
def multiplyRatio (a num den : Nat) : Nat := a * num / den

/-- `Uint128::checked_sub`, returning `none` on underflow. -/
def checkedSub (a b : Nat) : Option Nat := if b ≤ a then some (a - b) else none

/-- The input `AssetInfo` of the first operation of a split's path; an empty
path is `ContractError::EmptyRoute` (`split.path.first().ok_or(...)` in
`plan_next_stage`). -/
def firstOpInput (s : Split) : Except ContractError AssetInfo :=
  match s.path with
  | [] => .error .emptyRoute
  | op :: _ => .ok (get_operation_input op)

/-- First loop of `plan_next_stage` (`reply.rs`): discover the first
native-kind and first cw20-kind input `AssetInfo` among the next stage's
splits. -/
def scanKindInfos : List Split → Option AssetInfo → Option AssetInfo →
    Except ContractError (Option AssetInfo × Option AssetInfo)
  | [], nativeInfo, cw20Info => .ok (nativeInfo, cw20Info)
  | s :: rest, nativeInfo, cw20Info =>
    match firstOpInput s with
    | .error e => .error e
    | .ok offerInfo =>
      match offerInfo with
      | .nativeToken d =>
        scanKindInfos rest
          (if nativeInfo.isNone then some (.nativeToken d) else nativeInfo) cw20Info
      | .token a =>
        scanKindInfos rest nativeInfo
          (if cw20Info.isNone then some (.token a) else cw20Info)

/-- Second loop of `plan_next_stage`: sum the held amounts per
representation kind; result is `(native_have, cw20_have)`. -/
def haveByKind : List Asset → Nat × Nat
  | [] => (0, 0)
  | a :: rest =>
    let (n, c) := haveByKind rest
    match a.info with
    | .nativeToken _ => (a.amount + n, c)
    | .token _ => (n, a.amount + c)

/-- Total held amount (`total_logical_amount` in `plan_next_stage`). -/
def totalHave (assets : List Asset) : Nat :=
  (haveByKind assets).1 + (haveByKind assets).2

/-- Third loop of `plan_next_stage` (`reply.rs` lines 583-593): per-kind
needs of the next stage.  Every split, the last one included, contributes
`floor(total * percent / 100)`; result is
`(total_native_needs, total_cw20_needs)`. -/
def stage_needs (total : Nat) : List Split → Except ContractError (Nat × Nat)
  | [] => .ok (0, 0)
  | s :: rest =>
    match firstOpInput s with
    | .error e => .error e
    | .ok offerInfo =>
      match stage_needs total rest with
      | .error e => .error e
      | .ok (n, c) =>
        let amountForSplit := multiplyRatio total s.percent 100
        match offerInfo with
        | .nativeToken _ => .ok (amountForSplit + n, c)
        | .token _ => .ok (n, amountForSplit + c)

/-- The first held asset of the given kind (`accumulated_assets.iter().find`
in `plan_next_stage`'s conversion construction). -/
def findInfoOfKind (assets : List Asset) (native : Bool) : Option AssetInfo :=
  (assets.find? (fun a => a.info.isNative == native)).map Asset.info

/-- Conversion construction of `plan_next_stage`: for each kind with
`have > need`, queue the surplus for conversion to the other kind's
discovered info (skipped when the other kind never occurs in the next
stage). -/
def conversionsNeeded (accumulated : List Asset)
    (nativeInfo cw20Info : Option AssetInfo)
    (nativeHave cw20Have nativeNeeds cw20Needs : Nat) :
    Except ContractError (List (Asset × AssetInfo)) :=
  let nativePart : Except ContractError (List (Asset × AssetInfo)) :=
    if nativeNeeds < nativeHave then
      match cw20Info with
      | some targetInfo =>
        match findInfoOfKind accumulated true with
        | some info => .ok [(⟨info, nativeHave - nativeNeeds⟩, targetInfo)]
        | none => .error (.std "state inconsistency: native amount without native asset info")
      | none => .ok []
    else .ok []
  match nativePart with
  | .error e => .error e
  | .ok part1 =>
    if cw20Needs < cw20Have then
      match nativeInfo with
      | some targetInfo =>
        match findInfoOfKind accumulated false with
        | some info => .ok (part1 ++ [(⟨info, cw20Have - cw20Needs⟩, targetInfo)])
        | none => .error (.std "state inconsistency: cw20 amount without cw20 asset info")
      | none => .ok part1
    else .ok part1

/-- Fourth loop of `plan_next_stage` (`reply.rs` lines 639-661): allocate
dispatch amounts, `floor(total * percent / 100)` for every split but the
last, and `total - already_allocated` (a `checked_sub`) for the last.
`lastIsRemainder` is the `i < len - 1` test: the recursion marks the final
element by its empty tail.  Returns the planned swaps together with the
final `(native_allocated, cw20_allocated)`. -/
def allocLoop (total : Nat) :
    List Split → Nat → Nat →
    Except ContractError (List PlannedSwap × Nat × Nat)
  | [], nativeAlloc, cw20Alloc => .ok ([], nativeAlloc, cw20Alloc)
  | s :: rest, nativeAlloc, cw20Alloc =>
    match s.path with
    | [] => .error .emptyRoute
    | firstOp :: _ =>
      let offerInfo := get_operation_input firstOp
      match
        if rest.isEmpty then
          match checkedSub total (nativeAlloc + cw20Alloc) with
          | some v => Except.ok v
          | none => Except.error ContractError.overflow
        else
          Except.ok (multiplyRatio total s.percent 100) with
      | .error e => .error e
      | .ok amountForSplit =>
        let (nativeAlloc', cw20Alloc') :=
          match offerInfo with
          | .nativeToken _ => (nativeAlloc + amountForSplit, cw20Alloc)
          | .token _ => (nativeAlloc, cw20Alloc + amountForSplit)
        match allocLoop total rest nativeAlloc' cw20Alloc' with
        | .error e => .error e
        | .ok (swaps, n, c) =>
          .ok (⟨firstOp, amountForSplit⟩ :: swaps, n, c)

/-- `plan_next_stage` from `reply.rs`: kind discovery, held totals, per-kind
needs, surplus conversions, and the remainder-to-last allocation of the
planned swaps. -/
def plan_next_stage (accumulated_assets : List Asset) (next_stage : Stage) :
    Except ContractError StagePlan :=
  match scanKindInfos next_stage.splits none none with
  | .error e => .error e
  | .ok (nativeInfo, cw20Info) =>
    let (nativeHave, cw20Have) := haveByKind accumulated_assets
    let total := nativeHave + cw20Have
    match stage_needs total next_stage.splits with
    | .error e => .error e
    | .ok (nativeNeeds, cw20Needs) =>
      match conversionsNeeded accumulated_assets nativeInfo cw20Info
          nativeHave cw20Have nativeNeeds cw20Needs with
      | .error e => .error e
      | .ok convs =>
        match allocLoop total next_stage.splits 0 0 with
        | .error e => .error e
        | .ok (swaps, _, _) => .ok ⟨swaps, convs⟩

/-- Sum of the dispatch amounts of a list of planned swaps. -/
def plannedTotal (swaps : List PlannedSwap) : Nat :=
  (swaps.map PlannedSwap.amount).sum

/-- Sum of the split percentages of a stage (as unbounded naturals). -/
def sumPercents (splits : List Split) : Nat :=
  (splits.map Split.percent).sum

/-- `Awaiting` from `state.rs` as used by `reply.rs` (all four phases). -/
inductive Awaiting
  | swaps
  | conversions
  | finalConversions
  | pathConversion
deriving DecidableEq

/-- `PendingPathOp` from `state.rs` as used by `reply.rs`. -/
structure PendingPathOp where
  operation : Operation
  amount : Nat
deriving DecidableEq

/-- `ExecutionState`, the live continuation persisted per execution id. -/
structure ExecutionState where
  awaiting : Awaiting
  current_stage_index : Nat
  replies_expected : Nat
  accumulated_assets : List Asset
  pending_swaps : List PlannedSwap
  pending_path_op : Option PendingPathOp
deriving DecidableEq

/-- `RoutePlan` (the immutable plan; `sender` is the initiator). -/
structure RoutePlan where
  sender : String
  minimum_receive : Nat
  stages : List Stage
deriving DecidableEq

/-- `Config` from `state.rs` as used by `contract.rs`/`reply.rs`. -/
structure Config where
  admin : String
  cw20_adapter_address : String
  fee_collector : String
deriving DecidableEq

/-- The fields of `cosmwasm_std::Env` the handlers read. -/
structure EnvM where
  contract_address : String
deriving DecidableEq

/-- Read-only dependencies: the stored `CONFIG`, the `FEE_MAP` (Decimal
rates stored as their 18-decimal atomics), and the order-book simulation
query (`GetOutputQuantity`) as an oracle returning the result quantity's
atomics. -/
structure Deps where
  config : Config
  fee_map : String → Option Nat
  ob_sim : String → String → String → Nat → Nat

/-- Association-list lookup, modelling `Map::load` / `may_load`. -/
def mapLoad {α : Type} (m : List (Nat × α)) (k : Nat) : Option α :=
  (m.find? (fun p => p.1 == k)).map Prod.snd

/-- Association-list overwrite, modelling `Map::save`. -/
def mapSave {α : Type} (m : List (Nat × α)) (k : Nat) (v : α) : List (Nat × α) :=
  (k, v) :: m.filter (fun p => p.1 ≠ k)

/-- Association-list delete, modelling `Map::remove`. -/
def mapRemove {α : Type} (m : List (Nat × α)) (k : Nat) : List (Nat × α) :=
  m.filter (fun p => p.1 ≠ k)

/-- The mutable storage the embedded handlers touch: `EXECUTION_STATES`,
`ROUTE_PLANS` and `REPLY_ID_COUNTER`. -/
structure Storage where
  execution_states : List (Nat × ExecutionState)
  route_plans : List (Nat × RoutePlan)
  reply_id_counter : Option Nat
deriving DecidableEq

/-- `EXECUTION_STATES.load` (missing key is a storage error). -/
def Storage.loadExec (s : Storage) (k : Nat) : Option ExecutionState :=
  mapLoad s.execution_states k

/-- `EXECUTION_STATES.save`. -/
def Storage.saveExec (s : Storage) (k : Nat) (v : ExecutionState) : Storage :=
  { s with execution_states := mapSave s.execution_states k v }

/-- `EXECUTION_STATES.remove` together with `ROUTE_PLANS.remove`. -/
def Storage.removeBoth (s : Storage) (k : Nat) : Storage :=
  { s with execution_states := mapRemove s.execution_states k,
           route_plans := mapRemove s.route_plans k }

/-- The JSON payloads the handlers serialize into outbound `WasmMsg`s. -/
inductive WasmPayload
  | cw20Transfer (recipient : String) (amount : Nat)
  | cw20Send (contract : String) (amount : Nat) (inner : WasmPayload)
  | ammSwap (offer_info : AssetInfo) (offer_amount : Nat) (recipient : String)
  | adapterRedeemAndTransfer (recipient : String)
  | adapterReceiveSubmsg (recipient : String)
  | orderbookSwapMinOutput (target_denom : String) (min_output_quantity_atomics : Nat)
  | emptyMsg
deriving DecidableEq

/-- The outbound `CosmosMsg` shapes the handlers emit. -/
inductive CosmosMsgM
  | bankSend (to_address : String) (denom : String) (amount : Nat)
  | wasmExecute (contract_addr : String) (payload : WasmPayload) (funds : List (String × Nat))
deriving DecidableEq

/-- `SubMsg::reply_on_success(msg, id)`. -/
structure SubMsgM where
  msg : CosmosMsgM
  reply_id : Nat
deriving DecidableEq

/-- The parts of `Response` the handlers build. -/
structure ResponseM where
  submessages : List SubMsgM
  messages : List CosmosMsgM
  attributes : List (String × String)
deriving DecidableEq

/-- `Response::new()`. -/
def ResponseM.empty : ResponseM := ⟨[], [], []⟩

/-- `Response::add_submessages`. -/
def ResponseM.addSubmessages (r : ResponseM) (ss : List SubMsgM) : ResponseM :=
  { r with submessages := r.submessages ++ ss }

/-- `Response::add_submessage`. -/
def ResponseM.addSubmessage (r : ResponseM) (s : SubMsgM) : ResponseM :=
  { r with submessages := r.submessages ++ [s] }

/-- `Response::add_message`. -/
def ResponseM.addMessage (r : ResponseM) (m : CosmosMsgM) : ResponseM :=
  { r with messages := r.messages ++ [m] }

/-- `Response::add_attribute`. -/
def ResponseM.addAttribute (r : ResponseM) (k v : String) : ResponseM :=
  { r with attributes := r.attributes ++ [(k, v)] }

/-- An event attribute of a submessage reply. -/
structure EventAttr where
  key : String
  value : String
deriving DecidableEq

/-- An event of a submessage reply. -/
structure Event where
  ty : String
  attributes : List EventAttr
deriving DecidableEq

/-- `SubMsgResult`: an error string or the successful events. -/
inductive SubMsgResultM
  | err (error : String)
  | ok (events : List Event)
deriving DecidableEq

/-- `cosmwasm_std::Reply`. -/
structure ReplyM where
  id : Nat
  result : SubMsgResultM
deriving DecidableEq

/-- Character-level string prefix test (models `str::starts_with`; written
over the character lists so that it evaluates inside the kernel). -/
def charsStartWith : List Char → List Char → Bool
  | _, [] => true
  | [], _ :: _ => false
  | c :: cs, p :: ps => c == p && charsStartWith cs ps

/-- `str::starts_with`. -/
def strStartsWith (s pre : String) : Bool := charsStartWith s.data pre.data

/-- Decimal rendering of a `Nat` (models `to_string` on the integer types;
written with explicit fuel so that it evaluates inside the kernel). -/
def natToStringAux : Nat → Nat → List Char
  | 0, _ => []
  | fuel + 1, n =>
    if n < 10 then [Char.ofNat (48 + n)]
    else natToStringAux fuel (n / 10) ++ [Char.ofNat (48 + n % 10)]

/-- `to_string` for amounts and indices in response attributes. -/
def natToString (n : Nat) : String := ⟨natToStringAux (n + 1) n⟩

/-- `msg.result.into_result()` with the `SubmessageResultError` mapping the
handlers apply. -/
def intoEvents (msg : ReplyM) : Except ContractError (List Event) :=
  match msg.result with
  | .err e => .error (.submessageResultError e)
  | .ok events => .ok events

/-- `Uint128::from_str` over a character list: a non-empty all-digit
string whose value fits in 128 bits.  (Rust additionally tolerates a
leading plus sign; no claim depends on that.) -/
def parseU128Chars (cs : List Char) : Option Nat :=
  if cs.isEmpty then none
  else if cs.all Char.isDigit then
    let v := cs.foldl (fun n c => n * 10 + (c.toNat - 48)) 0
    if v ≤ u128Max then some v else none
  else none

/-- `Uint128::from_str`. -/
def parseUint128? (s : String) : Option Nat := parseU128Chars s.data

/-- The `find_map` of `parse_amount_from_swap_reply`: the first `wasm*`
event's amount attribute, keyed `swap_final_amount` for
`wasm-atomic_swap_execution` events and `return_amount` otherwise; a
`wasm*` event lacking the key lets the scan continue. -/
def swapAmountAttrValue : List Event → Option String
  | [] => none
  | e :: rest =>
    if strStartsWith e.ty "wasm" then
      let key := if e.ty == "wasm-atomic_swap_execution" then "swap_final_amount"
                 else "return_amount"
      match e.attributes.find? (fun a => a.key == key) with
      | some a => some a.value
      | none => swapAmountAttrValue rest
    else swapAmountAttrValue rest

/-- `parse_amount_from_swap_reply` from `reply.rs`: a missing amount
attribute parses as zero; a malformed one is an error. -/
def parse_amount_from_swap_reply (msg : ReplyM) : Except ContractError Nat :=
  match intoEvents msg with
  | .error e => .error e
  | .ok events =>
    match swapAmountAttrValue events with
    | some s =>
      match parseUint128? s with
      | some v => .ok v
      | none => .error (.malformedAmountInReply s)
    | none => .ok 0

/-- `parse_amount_from_conversion_reply` from `reply.rs`: first a bank
`transfer` event whose recipient is this contract (leading digits of the
amount string are parsed, the denom suffix is dropped), else a `wasm*`
event with `action == transfer`, else `NoConversionEventInReply`. -/
def parse_amount_from_conversion_reply (msg : ReplyM) (env : EnvM) :
    Except ContractError Nat :=
  match intoEvents msg with
  | .error e => .error e
  | .ok events =>
  match events.find? (fun e => e.ty == "transfer" &&
      e.attributes.any (fun a => a.key == "recipient" && a.value == env.contract_address)) with
  | some transferEvent =>
    match transferEvent.attributes.find? (fun a => a.key == "amount") with
    | none => .error .noAmountInReply
    | some attr =>
      let numericPart := attr.value.data.takeWhile Char.isDigit
      match parseU128Chars numericPart with
      | some v => .ok v
      | none => .error (.malformedAmountInReply attr.value)
  | none =>
    match events.find? (fun e => strStartsWith e.ty "wasm" &&
        e.attributes.any (fun a => a.key == "action" && a.value == "transfer")) with
    | some wasmEvent =>
      match wasmEvent.attributes.find? (fun a => a.key == "amount") with
      | none => .error .noAmountInReply
      | some attr =>
        match parseUint128? attr.value with
        | some v => .ok v
        | none => .error (.malformedAmountInReply attr.value)
    | none => .error .noConversionEventInReply

/-- `create_send_msg` from `reply.rs`. -/
def create_send_msg (recipient : String) (asset_info : AssetInfo) (amount : Nat) :
    CosmosMsgM :=
  match asset_info with
  | .nativeToken denom => .bankSend recipient denom amount
  | .token contract_addr => .wasmExecute contract_addr (.cw20Transfer recipient amount) []

/-- `create_conversion_msg` from `reply.rs`: CW20 funds go through the
adapter's receive hook, native funds through `RedeemAndTransfer`. -/
def create_conversion_msg (a : Asset) (config : Config) (env : EnvM) : CosmosMsgM :=
  match a.info with
  | .token contract_addr =>
    .wasmExecute contract_addr
      (.cw20Send config.cw20_adapter_address a.amount
        (.adapterReceiveSubmsg env.contract_address)) []
  | .nativeToken denom =>
    .wasmExecute config.cw20_adapter_address
      (.adapterRedeemAndTransfer env.contract_address) [(denom, a.amount)]

/-- `10^18`, one unit in `Decimal` / `FPDecimal` fixed point. -/
def fpOne : Nat := 10 ^ 18

/-- `create_swap_cosmos_msg` from `execute.rs`.  For order-book swaps the
offered amount is rounded down to a multiple of `min_quantity_tick_size`;
a zero tick size is an error, and a zero rounded amount is answered with a
no-op self-call instead of a venue call.  The min-output quantity applies
the 0.5 percent slippage haircut to the simulated output and floors to an
integer, in 18-decimal fixed point. -/
def create_swap_cosmos_msg (deps : Deps) (operation : Operation)
    (offer_asset_info : AssetInfo) (amount : Nat) (env : EnvM) :
    Except ContractError CosmosMsgM :=
  match operation with
  | .ammSwap ammOp =>
    let swapPayload := WasmPayload.ammSwap offer_asset_info amount env.contract_address
    match offer_asset_info with
    | .nativeToken denom =>
      .ok (.wasmExecute ammOp.pool_address swapPayload [(denom, amount)])
    | .token contract_addr =>
      .ok (.wasmExecute contract_addr (.cw20Send ammOp.pool_address amount swapPayload) [])
  | .orderbookSwap obOp =>
    let tickSize := obOp.min_quantity_tick_size
    if tickSize = 0 then .error (.std "min_quantity_tick_size cannot be zero")
    else
      let ratio := amount / tickSize
      let roundedAtomicAmount := ratio * tickSize
      if roundedAtomicAmount = 0 then
        .ok (.wasmExecute env.contract_address .emptyMsg [])
      else
        match obOp.offer_asset_info with
        | .token _ => .error (.std "orderbook swaps only support native token inputs")
        | .nativeToken offerDenom =>
          match obOp.ask_asset_info with
          | .token _ => .error (.std "orderbook swaps only support native token outputs")
          | .nativeToken targetDenom =>
            let expectedOutput :=
              deps.ob_sim obOp.swap_contract offerDenom targetDenom (roundedAtomicAmount * fpOne)
            let minOutputWithSlippage := expectedOutput * (fpOne - 5 * 10 ^ 15) / fpOne
            let flooredMinOutput := minOutputWithSlippage / fpOne * fpOne
            .ok (.wasmExecute obOp.swap_contract
              (.orderbookSwapMinOutput targetDenom flooredMinOutput)
              [(offerDenom, roundedAtomicAmount)])

/-- The fee deduction of `handle_swap_reply` (`reply.rs` lines 202-210):
`fee = received.multiply_ratio(rate.atomics(), 10^18)` with rate zero for
an absent `FEE_MAP` entry, and `net = received.checked_sub(fee)`. -/
def apply_fee (feeEntry : Option Nat) (received : Nat) :
    Except ContractError (Nat × Nat) :=
  let fee := match feeEntry with
    | some feeAtomics => multiplyRatio received feeAtomics fpOne
    | none => 0
  match checkedSub received fee with
  | some net => .ok (net, fee)
  | none => .error .overflow

/-- Checked `u64` decrement (`replies_expected -= 1`). -/
def u64Dec (n : Nat) : Except ContractError Nat :=
  if n = 0 then .error .overflow else .ok (n - 1)

/-- The accumulation loop of `handle_final_stage`: amounts already in the
target representation sum into `ready_amount`; the rest become conversion
submessages, in order. -/
def finalScan (target : AssetInfo) (config : Config) (env : EnvM) (reply_id : Nat) :
    List Asset → Nat × List SubMsgM
  | [] => (0, [])
  | a :: rest =>
    let (ready, subs) := finalScan target config env reply_id rest
    if a.info == target then (a.amount + ready, subs)
    else (ready, ⟨create_conversion_msg a config env, reply_id⟩ :: subs)

/-- `handle_final_stage` from `reply.rs`: empty accumulation succeeds only
for a zero minimum; otherwise the first accumulated asset's representation
is the target, same-representation amounts settle immediately (minimum
check, transfer, state deletion) and other-representation amounts start
the `FinalConversions` phase. -/
def handle_final_stage (deps : Deps) (env : EnvM) (stor : Storage) (reply_id : Nat)
    (exec_state : ExecutionState) (plan : RoutePlan) :
    Except ContractError (Storage × ResponseM) :=
  match exec_state.accumulated_assets with
  | [] =>
    if plan.minimum_receive ≠ 0 then .error .minimumReceiveNotMet
    else
      .ok (stor.removeBoth reply_id,
        ResponseM.empty.addAttribute "action" "aggregate_swap_complete_empty")
  | firstAsset :: _ =>
    let targetInfo := firstAsset.info
    let (ready, convSubmsgs) :=
      finalScan targetInfo deps.config env reply_id exec_state.accumulated_assets
    if convSubmsgs.isEmpty then
      if ready < plan.minimum_receive then .error .minimumReceiveNotMet
      else
        let resp0 := ResponseM.empty
        let resp1 := if ready ≠ 0 then
            resp0.addMessage (create_send_msg plan.sender targetInfo ready)
          else resp0
        .ok (stor.removeBoth reply_id,
          (resp1.addAttribute "action" "aggregate_swap_complete").addAttribute
            "final_received" (natToString ready))
    else
      let st1 := { exec_state with
        awaiting := .finalConversions,
        replies_expected := convSubmsgs.length,
        accumulated_assets := [⟨targetInfo, ready⟩] }
      .ok (stor.saveExec reply_id st1,
        (ResponseM.empty.addSubmessages convSubmsgs).addAttribute "action"
          "final_asset_normalization_started")

/-- `handle_final_conversion_reply` from `reply.rs`: add the parsed
conversion output to the running total; once the last expected reply has
arrived, enforce `minimum_receive`, transfer and delete the state. -/
def handle_final_conversion_reply (deps : Deps) (env : EnvM) (stor : Storage)
    (msg : ReplyM) (exec_state : ExecutionState) (plan : RoutePlan) :
    Except ContractError (Storage × ResponseM) :=
  let reply_id := msg.id
  match parse_amount_from_conversion_reply msg env with
  | .error e => .error e
  | .ok converted =>
    match exec_state.accumulated_assets with
    | [] => .error (.std "final conversion state is invalid: no accumulated asset found")
    | running :: rest =>
      let totalSoFar := running.amount + converted
      match u64Dec exec_state.replies_expected with
      | .error e => .error e
      | .ok repliesLeft =>
        let st1 := { exec_state with
          accumulated_assets := { running with amount := totalSoFar } :: rest,
          replies_expected := repliesLeft }
        if 0 < repliesLeft then
          .ok (stor.saveExec reply_id st1,
            ResponseM.empty.addAttribute "action" "accumulating_final_conversions")
        else
          if totalSoFar < plan.minimum_receive then .error .minimumReceiveNotMet
          else
            let resp0 := ResponseM.empty
            let resp1 := if totalSoFar ≠ 0 then
                resp0.addMessage (create_send_msg plan.sender running.info totalSoFar)
              else resp0
            .ok (stor.removeBoth reply_id,
              (resp1.addAttribute "action" "aggregate_swap_complete").addAttribute
                "final_received" (natToString totalSoFar))

/-- The submessage construction of `execute_planned_swaps` (the zero-amount
filter is applied by the caller, as in the source's `filter`). -/
def buildSwapSubmsgs (deps : Deps) (env : EnvM) (reply_id : Nat) :
    List PlannedSwap → Except ContractError (List SubMsgM)
  | [] => .ok []
  | s :: rest =>
    match create_swap_cosmos_msg deps s.operation (get_operation_input s.operation)
        s.amount env with
    | .error e => .error e
    | .ok m =>
      match buildSwapSubmsgs deps env reply_id rest with
      | .error e => .error e
      | .ok ms => .ok (⟨m, reply_id⟩ :: ms)

mutual

/-- `proceed_to_next_step` from `reply.rs`: past the last stage hand off to
final settlement; otherwise plan the next stage, clear the accumulation,
and either dispatch the planned swaps directly or enter the `Conversions`
phase.  The fuel bounds the stage-advance recursion (the source's
recursion is bounded by the number of remaining stages). -/
def proceed_to_next_step (fuel : Nat) (deps : Deps) (env : EnvM) (stor : Storage)
    (exec_state : ExecutionState) (plan : RoutePlan) (master_reply_id : Nat) :
    Except ContractError (Storage × ResponseM) :=
  match fuel with
  | 0 => .error .outOfFuel
  | fuel + 1 =>
    if plan.stages.length ≤ exec_state.current_stage_index then
      handle_final_stage deps env stor master_reply_id exec_state plan
    else
      match plan.stages.get? exec_state.current_stage_index with
      | none => .error .notFound
      | some nextStage =>
        match plan_next_stage exec_state.accumulated_assets nextStage with
        | .error e => .error e
        | .ok stagePlan =>
          let st1 := { exec_state with accumulated_assets := [] }
          if stagePlan.conversions_needed.isEmpty then
            execute_planned_swaps fuel deps env stor st1 plan master_reply_id
              stagePlan.swaps_to_execute
          else
            let convSubmsgs := stagePlan.conversions_needed.map
              (fun p => SubMsgM.mk (create_conversion_msg p.1 deps.config env) master_reply_id)
            let st2 := { st1 with
              awaiting := .conversions,
              replies_expected := convSubmsgs.length,
              pending_swaps := stagePlan.swaps_to_execute }
            .ok (stor.saveExec master_reply_id st2,
              (ResponseM.empty.addSubmessages convSubmsgs).addAttribute "action"
                "performing_minimal_conversions")

/-- `execute_planned_swaps` from `reply.rs`: dispatch every planned swap
with a nonzero amount; when nothing is dispatched, advance to the next
stage immediately. -/
def execute_planned_swaps (fuel : Nat) (deps : Deps) (env : EnvM) (stor : Storage)
    (exec_state : ExecutionState) (plan : RoutePlan) (reply_id : Nat)
    (swaps : List PlannedSwap) :
    Except ContractError (Storage × ResponseM) :=
  match fuel with
  | 0 => .error .outOfFuel
  | fuel + 1 =>
    match buildSwapSubmsgs deps env reply_id (swaps.filter (fun s => s.amount ≠ 0)) with
    | .error e => .error e
    | .ok submessages =>
      if submessages.isEmpty then
        proceed_to_next_step fuel deps env stor
          { exec_state with current_stage_index := exec_state.current_stage_index + 1 }
          plan reply_id
      else
        let st1 := { exec_state with
          awaiting := .swaps, replies_expected := submessages.length }
        .ok (stor.saveExec reply_id st1,
          ((ResponseM.empty.addSubmessages submessages).addAttribute "action"
            "executing_planned_swaps").addAttribute "stage_index"
            (natToString st1.current_stage_index))

end

/-- The `events.iter().rev().find` of `handle_swap_reply`: the last event
whose type starts with `wasm` and that carries a `return_amount` or
`swap_final_amount` attribute. -/
def findSwapEvent (events : List Event) : Option Event :=
  events.reverse.find? (fun e => strStartsWith e.ty "wasm" &&
    (e.attributes.any (fun a => a.key == "return_amount") ||
     e.attributes.any (fun a => a.key == "swap_final_amount")))

/-- Inner loop of `handle_swap_reply`'s split search: first operation of a
path whose venue address matches. -/
def findOpInPath (addr : String) : List Operation → Nat → Option (Nat × Operation)
  | [], _ => none
  | op :: rest, opIdx =>
    if get_operation_address op == addr then some (opIdx, op)
    else findOpInPath addr rest (opIdx + 1)

/-- Outer loop of `handle_swap_reply`'s split search. -/
def findRepliedPathInfo (addr : String) : List Split → Nat → Option ((Nat × Nat) × Operation)
  | [], _ => none
  | s :: rest, splitIdx =>
    match findOpInPath addr s.path 0 with
    | some (opIdx, op) => some ((splitIdx, opIdx), op)
    | none => findRepliedPathInfo addr rest (splitIdx + 1)

/-- `handle_swap_reply` from `reply.rs`.  A reply without a swap event is
treated as a zero-value path completion.  Otherwise the replying venue is
matched against the current stage's split paths; a mid-path operation
dispatches the next hop (via a `PathConversion` when the representation
mismatches), and a terminal operation applies the venue fee and
accumulates the post-fee asset. -/
def handle_swap_reply (fuel : Nat) (deps : Deps) (env : EnvM) (stor : Storage)
    (msg : ReplyM) (exec_state : ExecutionState) (plan : RoutePlan) :
    Except ContractError (Storage × ResponseM) :=
  let master_reply_id := msg.id
  match intoEvents msg with
  | .error e => .error e
  | .ok events =>
  match findSwapEvent events with
  | none =>
    match u64Dec exec_state.replies_expected with
    | .error e => .error e
    | .ok repliesLeft =>
      let st1 := { exec_state with replies_expected := repliesLeft }
      if 0 < repliesLeft then
        .ok (stor.saveExec master_reply_id st1,
          (ResponseM.empty.addAttribute "action" "accumulating_path_outputs").addAttribute
            "info" "zero_value_path_completed")
      else
        proceed_to_next_step fuel deps env stor
          { st1 with current_stage_index := st1.current_stage_index + 1 } plan
          master_reply_id
  | some swapEvent =>
    match swapEvent.attributes.find? (fun a => a.key == "_contract_address") with
    | none => .error (.std "swap result event is missing contract address")
    | some contractAttr =>
      let replyingPoolAddr := contractAttr.value
      match plan.stages.get? exec_state.current_stage_index with
      | none => .error .emptyRoute
      | some currentStage =>
        match findRepliedPathInfo replyingPoolAddr currentStage.splits 0 with
        | none =>
          .error (.std "could not find a split or operation matching the replying contract")
        | some ((splitIndex, opIndex), repliedOp) =>
          match parse_amount_from_swap_reply msg with
          | .error e => .error e
          | .ok receivedAmount =>
            let receivedAssetInfo := get_operation_output repliedOp
            let repliedPath := ((currentStage.splits.get? splitIndex).map Split.path).getD []
            match repliedPath.get? (opIndex + 1) with
            | some nextOp =>
              let requiredInputInfo := get_operation_input nextOp
              if receivedAssetInfo ≠ requiredInputInfo then
                let st1 := { exec_state with
                  awaiting := .pathConversion,
                  pending_path_op := some ⟨nextOp, receivedAmount⟩ }
                let conversionMsg := create_conversion_msg
                  ⟨receivedAssetInfo, receivedAmount⟩ deps.config env
                .ok (stor.saveExec master_reply_id st1,
                  (ResponseM.empty.addSubmessage
                    ⟨conversionMsg, master_reply_id⟩).addAttribute
                    "action" "performing_path_conversion")
              else
                match create_swap_cosmos_msg deps nextOp receivedAssetInfo
                    receivedAmount env with
                | .error e => .error e
                | .ok nextMsg =>
                  .ok (stor.saveExec master_reply_id exec_state,
                    (((ResponseM.empty.addSubmessage
                      ⟨nextMsg, master_reply_id⟩).addAttribute
                      "action" "proceeding_to_next_op_in_path").addAttribute
                      "split_index" (natToString splitIndex)).addAttribute
                      "op_index" (natToString (opIndex + 1)))
            | none =>
              match apply_fee (deps.fee_map replyingPoolAddr) receivedAmount with
              | .error e => .error e
              | .ok (amountAfterFee, fee) =>
                let st1 := { exec_state with
                  accumulated_assets :=
                    exec_state.accumulated_assets ++ [Asset.mk receivedAssetInfo amountAfterFee] }
                match u64Dec st1.replies_expected with
                | .error e => .error e
                | .ok repliesLeft =>
                  let st2 := { st1 with replies_expected := repliesLeft }
                  let out :=
                    if 0 < repliesLeft then
                      Except.ok (stor.saveExec master_reply_id st2,
                        ResponseM.empty.addAttribute "action" "accumulating_path_outputs")
                    else
                      proceed_to_next_step fuel deps env stor
                        { st2 with current_stage_index := st2.current_stage_index + 1 } plan
                        master_reply_id
                  match out with
                  | .error e => .error e
                  | .ok (stor1, response) =>
                    if fee ≠ 0 then
                      .ok (stor1,
                        ((response.addMessage
                          (create_send_msg deps.config.fee_collector
                            receivedAssetInfo fee)).addAttribute
                          "fee_collected" (natToString fee)).addAttribute
                          "fee_pool" replyingPoolAddr)
                    else
                      .ok (stor1, response)

/-- `handle_conversion_reply` from `reply.rs`: decrement the expected-reply
counter; once it reaches zero, take the stored `pending_swaps` and dispatch
them.  The callback payload is never inspected beyond its id. -/
def handle_conversion_reply (fuel : Nat) (deps : Deps) (env : EnvM) (stor : Storage)
    (msg : ReplyM) (exec_state : ExecutionState) (plan : RoutePlan) :
    Except ContractError (Storage × ResponseM) :=
  let master_reply_id := msg.id
  match u64Dec exec_state.replies_expected with
  | .error e => .error e
  | .ok repliesLeft =>
    let st1 := { exec_state with replies_expected := repliesLeft }
    if 0 < repliesLeft then
      .ok (stor.saveExec master_reply_id st1,
        ResponseM.empty.addAttribute "action" "accumulating_conversion_outputs")
    else
      let swapsToExecute := st1.pending_swaps
      let st2 := { st1 with pending_swaps := [] }
      execute_planned_swaps fuel deps env stor st2 plan master_reply_id swapsToExecute

/-- `handle_path_conversion_reply` from `reply.rs`: resume the recorded
next hop with the parsed conversion output. -/
def handle_path_conversion_reply (deps : Deps) (env : EnvM) (stor : Storage)
    (msg : ReplyM) (exec_state : ExecutionState) (_plan : RoutePlan) :
    Except ContractError (Storage × ResponseM) :=
  let master_reply_id := msg.id
  match parse_amount_from_conversion_reply msg env with
  | .error e => .error e
  | .ok converted =>
    match exec_state.pending_path_op with
    | none => .error (.std "path conversion state is invalid: no pending operation found")
    | some pendingOp =>
      let st1 := { exec_state with pending_path_op := none }
      let convertedAssetInfo := get_operation_input pendingOp.operation
      match create_swap_cosmos_msg deps pendingOp.operation convertedAssetInfo
          converted env with
      | .error e => .error e
      | .ok swapMsg =>
        let st2 := { st1 with awaiting := .swaps }
        .ok (stor.saveExec master_reply_id st2,
          (ResponseM.empty.addSubmessage ⟨swapMsg, master_reply_id⟩).addAttribute "action"
            "resuming_path_after_conversion")

/-- `handle_reply` from `reply.rs`: load the execution state and route plan
for the reply id, then dispatch on the awaited phase. -/
def handle_reply (fuel : Nat) (deps : Deps) (env : EnvM) (stor : Storage)
    (msg : ReplyM) : Except ContractError (Storage × ResponseM) :=
  match stor.loadExec msg.id with
  | none => .error .notFound
  | some exec_state =>
    match mapLoad stor.route_plans msg.id with
    | none => .error .notFound
    | some plan =>
      match exec_state.awaiting with
      | .swaps => handle_swap_reply fuel deps env stor msg exec_state plan
      | .conversions => handle_conversion_reply fuel deps env stor msg exec_state plan
      | .finalConversions => handle_final_conversion_reply deps env stor msg exec_state plan
      | .pathConversion => handle_path_conversion_reply deps env stor msg exec_state plan

/-- The checked `u8` sum of stage 0's split percentages
(`first_stage.splits.iter().map(|s| s.percent).sum::<u8>()`, under the
spec's section 7 policy that arithmetic overflow is raised): the running
checked fold aborts exactly when the total exceeds `u8::MAX`. -/
def checkedU8Sum (ps : List Nat) : Option Nat :=
  if ps.sum ≤ 255 then some ps.sum else none

/-- `minimum_receive_str` parsing of `execute_aggregate_swaps_internal`. -/
def parseMinimumReceive : Option String → Except ContractError Nat
  | some s =>
    match parseUint128? s with
    | some v => .ok v
    | none => .error (.std "invalid Uint128 string")
  | none => .ok 0

/-- `execute_aggregate_swaps_internal` from `execute.rs`: validation
(`ZeroAmount`, `NoStages`, stage-0 percentage sum), fresh execution id,
plan persistence, initial state, and the stage-0 hand-off. -/
def execute_aggregate_swaps_internal (fuel : Nat) (deps : Deps) (env : EnvM)
    (stor : Storage) (stages : List Stage) (minimum_receive_str : Option String)
    (offer_asset : Asset) (initiator : String) :
    Except ContractError (Storage × ResponseM) :=
  if offer_asset.amount = 0 then .error .zeroAmount
  else
    match stages with
    | [] => .error .noStages
    | firstStage :: restStages =>
      match checkedU8Sum (firstStage.splits.map Split.percent) with
      | none => .error .overflow
      | some totalPercentage =>
        if totalPercentage ≠ 100 then .error .invalidPercentageSum
        else
          let reply_id := (stor.reply_id_counter.getD 0) + 1
          let stor1 := { stor with reply_id_counter := some reply_id }
          match parseMinimumReceive minimum_receive_str with
          | .error e => .error e
          | .ok minimumReceive =>
            let plan : RoutePlan := ⟨initiator, minimumReceive, firstStage :: restStages⟩
            let stor2 := { stor1 with route_plans := mapSave stor1.route_plans reply_id plan }
            let initialState : ExecutionState := ⟨.swaps, 0, 0, [offer_asset], [], none⟩
            proceed_to_next_step fuel deps env stor2 initialState plan reply_id

/-! ### Lemmas about the stage planner -/

theorem scanKindInfos_ok (splits : List Split) (hpaths : ∀ s ∈ splits, s.path ≠ []) :
    ∀ n c, ∃ p, scanKindInfos splits n c = .ok p := by
  induction splits with
  | nil => intro n c; exact ⟨(n, c), rfl⟩
  | cons s rest ih =>
    intro n c
    have hs : s.path ≠ [] := hpaths s (by simp)
    have hrest : ∀ t ∈ rest, t.path ≠ [] := fun t ht => hpaths t (by simp [ht])
    cases hp : s.path with
    | nil => exact absurd hp hs
    | cons op ops =>
      simp only [scanKindInfos, firstOpInput, hp]
      cases get_operation_input op with
      | nativeToken d => exact ih hrest _ _
      | token a => exact ih hrest _ _

theorem stage_needs_ok (total : Nat) (splits : List Split)
    (hpaths : ∀ s ∈ splits, s.path ≠ []) :
    ∃ nc, stage_needs total splits = .ok nc ∧
      nc.1 + nc.2 = ((splits.map (fun s => multiplyRatio total s.percent 100)).sum) := by
  induction splits with
  | nil => exact ⟨(0, 0), rfl, by simp⟩
  | cons s rest ih =>
    have hs : s.path ≠ [] := hpaths s (by simp)
    have hrest : ∀ t ∈ rest, t.path ≠ [] := fun t ht => hpaths t (by simp [ht])
    obtain ⟨⟨n, c⟩, hok, hsum⟩ := ih hrest
    cases hp : s.path with
    | nil => exact absurd hp hs
    | cons op ops =>
      simp only [stage_needs, firstOpInput, hp, hok]
      cases get_operation_input op with
      | nativeToken d =>
        exact ⟨_, rfl, by simp only [List.map_cons, List.sum_cons]; omega⟩
      | token a =>
        exact ⟨_, rfl, by simp only [List.map_cons, List.sum_cons]; omega⟩

theorem floorsSum_le (total : Nat) (splits : List Split) :
    ((splits.map (fun s => multiplyRatio total s.percent 100)).sum) ≤
      multiplyRatio total (sumPercents splits) 100 := by
  induction splits with
  | nil => simp [sumPercents, multiplyRatio]
  | cons s rest ih =>
    simp only [List.map_cons, List.sum_cons, sumPercents, multiplyRatio] at *
    calc total * s.percent / 100 + (rest.map (fun s => total * s.percent / 100)).sum
        ≤ total * s.percent / 100 + total * (rest.map Split.percent).sum / 100 :=
          Nat.add_le_add_left ih _
      _ ≤ (total * s.percent + total * (rest.map Split.percent).sum) / 100 :=
          Nat.add_div_le_add_div _ _ _
      _ = total * (s.percent + (rest.map Split.percent).sum) / 100 := by
          rw [Nat.mul_add]

theorem multiplyRatio_le_total (total p : Nat) (hp : p ≤ 100) :
    multiplyRatio total p 100 ≤ total := by
  unfold multiplyRatio
  have h1 : total * p ≤ total * 100 := Nat.mul_le_mul_left total hp
  have h2 : total * p / 100 ≤ total * 100 / 100 := Nat.div_le_div_right h1
  have h3 : total * 100 / 100 = total := Nat.mul_div_cancel total (by norm_num)
  omega

theorem allocLoop_accounting (total : Nat) :
    ∀ (splits : List Split) (nA cA : Nat) (swaps : List PlannedSwap) (n c : Nat),
      allocLoop total splits nA cA = .ok (swaps, n, c) →
      n + c = nA + cA + plannedTotal swaps := by
  intro splits
  induction splits with
  | nil =>
    intro nA cA swaps n c h
    simp only [allocLoop, Except.ok.injEq, Prod.mk.injEq] at h
    obtain ⟨h1, h2, h3⟩ := h
    subst h1; subst h2; subst h3
    simp [plannedTotal]
  | cons s rest ih =>
    intro nA cA swaps n c h
    simp only [allocLoop] at h
    cases hp : s.path with
    | nil => rw [hp] at h; exact absurd h (by simp)
    | cons op ops =>
      rw [hp] at h
      simp only at h
      rcases hAmt : (if rest.isEmpty then
          match checkedSub total (nA + cA) with
          | some v => Except.ok v
          | none => Except.error ContractError.overflow
        else Except.ok (multiplyRatio total s.percent 100) :
          Except ContractError Nat) with e | amt
      · rw [hAmt] at h; exact absurd h (by simp)
      · rw [hAmt] at h
        simp only at h
        cases hi : get_operation_input op with
        | nativeToken d =>
          rw [hi] at h
          simp only at h
          rcases hrec : allocLoop total rest (nA + amt) cA with e | res
          · rw [hrec] at h; exact absurd h (by simp)
          · obtain ⟨swaps', n', c'⟩ := res
            rw [hrec] at h
            simp only [Except.ok.injEq, Prod.mk.injEq] at h
            obtain ⟨h1, h2, h3⟩ := h
            have hih := ih (nA + amt) cA swaps' n' c' hrec
            subst h1
            simp only [plannedTotal, List.map_cons, List.sum_cons] at hih ⊢
            omega
        | token a =>
          rw [hi] at h
          simp only at h
          rcases hrec : allocLoop total rest nA (cA + amt) with e | res
          · rw [hrec] at h; exact absurd h (by simp)
          · obtain ⟨swaps', n', c'⟩ := res
            rw [hrec] at h
            simp only [Except.ok.injEq, Prod.mk.injEq] at h
            obtain ⟨h1, h2, h3⟩ := h
            have hih := ih nA (cA + amt) swaps' n' c' hrec
            subst h1
            simp only [plannedTotal, List.map_cons, List.sum_cons] at hih ⊢
            omega

theorem allocLoop_total (total : Nat) :
    ∀ (splits : List Split) (nA cA : Nat),
      splits ≠ [] →
      (∀ s ∈ splits, s.path ≠ []) →
      nA + cA + ((splits.dropLast.map (fun s => multiplyRatio total s.percent 100)).sum)
        ≤ total →
      ∃ swaps n c, allocLoop total splits nA cA = .ok (swaps, n, c) ∧ n + c = total := by
  intro splits
  induction splits with
  | nil => intro nA cA hne; exact absurd rfl hne
  | cons s rest ih =>
    intro nA cA _ hpaths hbound
    have hs : s.path ≠ [] := hpaths s (by simp)
    cases hp : s.path with
    | nil => exact absurd hp hs
    | cons op ops =>
      cases hrest : rest with
      | nil =>
        subst hrest
        have hle : nA + cA ≤ total := by simpa using hbound
        cases hi : get_operation_input op with
        | nativeToken d =>
          refine ⟨[⟨op, total - (nA + cA)⟩], nA + (total - (nA + cA)), cA, ?_, by omega⟩
          simp [allocLoop, hp, checkedSub, hle, hi]
        | token a =>
          refine ⟨[⟨op, total - (nA + cA)⟩], nA, cA + (total - (nA + cA)), ?_, by omega⟩
          simp [allocLoop, hp, checkedSub, hle, hi]
      | cons s' rest' =>
        subst hrest
        have hpaths' : ∀ t ∈ s' :: rest', t.path ≠ [] := fun t ht => hpaths t (by simp [ht])
        have hboundSplit :
            nA + cA + multiplyRatio total s.percent 100 +
              (((s' :: rest').dropLast.map (fun t => multiplyRatio total t.percent 100)).sum)
              ≤ total := by
          have hdl : (s :: s' :: rest').dropLast = s :: (s' :: rest').dropLast := by
            simp [List.dropLast]
          rw [hdl] at hbound
          simp only [List.map_cons, List.sum_cons] at hbound
          omega
        cases hi : get_operation_input op with
        | nativeToken d =>
          obtain ⟨swaps', n', c', hok, htot⟩ :=
            ih (nA + multiplyRatio total s.percent 100) cA (by simp) hpaths' (by omega)
          refine ⟨⟨op, multiplyRatio total s.percent 100⟩ :: swaps', n', c', ?_, htot⟩
          rw [allocLoop.eq_2]
          simp only [hp, hi, List.isEmpty_cons, Bool.false_eq_true, if_false]
          rw [hok]
        | token a =>
          obtain ⟨swaps', n', c', hok, htot⟩ :=
            ih nA (cA + multiplyRatio total s.percent 100) (by simp) hpaths' (by omega)
          refine ⟨⟨op, multiplyRatio total s.percent 100⟩ :: swaps', n', c', ?_, htot⟩
          rw [allocLoop.eq_2]
          simp only [hp, hi, List.isEmpty_cons, Bool.false_eq_true, if_false]
          rw [hok]

theorem haveByKind_cons (a : Asset) (rest : List Asset) :
    haveByKind (a :: rest) =
      match a.info with
      | .nativeToken _ => (a.amount + (haveByKind rest).1, (haveByKind rest).2)
      | .token _ => ((haveByKind rest).1, a.amount + (haveByKind rest).2) := by
  cases hi : a.info <;> simp [haveByKind, hi]

theorem findInfoOfKind_cons (a : Asset) (rest : List Asset) (b : Bool) :
    findInfoOfKind (a :: rest) b =
      if a.info.isNative == b then some a.info else findInfoOfKind rest b := by
  unfold findInfoOfKind
  cases h : (a.info.isNative == b) with
  | true => simp [List.find?, h]
  | false => simp [List.find?, h]

theorem findInfoOfKind_native_of_pos (assets : List Asset) :
    0 < (haveByKind assets).1 → ∃ i, findInfoOfKind assets true = some i := by
  induction assets with
  | nil => intro h; simp [haveByKind] at h
  | cons a rest ih =>
    intro hpos
    rw [findInfoOfKind_cons]
    cases hi : a.info with
    | nativeToken d => exact ⟨a.info, by simp [hi, AssetInfo.isNative]⟩
    | token t =>
      have hrec : 0 < (haveByKind rest).1 := by
        rw [haveByKind_cons, hi] at hpos
        simpa using hpos
      obtain ⟨i, hfind⟩ := ih hrec
      exact ⟨i, by simp [hi, AssetInfo.isNative, hfind]⟩

theorem findInfoOfKind_cw20_of_pos (assets : List Asset) :
    0 < (haveByKind assets).2 → ∃ i, findInfoOfKind assets false = some i := by
  induction assets with
  | nil => intro h; simp [haveByKind] at h
  | cons a rest ih =>
    intro hpos
    rw [findInfoOfKind_cons]
    cases hi : a.info with
    | token t => exact ⟨a.info, by simp [hi, AssetInfo.isNative]⟩
    | nativeToken d =>
      have hrec : 0 < (haveByKind rest).2 := by
        rw [haveByKind_cons, hi] at hpos
        simpa using hpos
      obtain ⟨i, hfind⟩ := ih hrec
      exact ⟨i, by simp [hi, AssetInfo.isNative, hfind]⟩

theorem conversionsNeeded_ok (accumulated : List Asset)
    (nativeInfo cw20Info : Option AssetInfo) (nativeNeeds cw20Needs : Nat) :
    ∃ l, conversionsNeeded accumulated nativeInfo cw20Info
      (haveByKind accumulated).1 (haveByKind accumulated).2 nativeNeeds cw20Needs = .ok l := by
  unfold conversionsNeeded
  by_cases h1 : nativeNeeds < (haveByKind accumulated).1
  · obtain ⟨i1, hf1⟩ := findInfoOfKind_native_of_pos accumulated (by omega)
    by_cases h2 : cw20Needs < (haveByKind accumulated).2
    · obtain ⟨i2, hf2⟩ := findInfoOfKind_cw20_of_pos accumulated (by omega)
      cases cw20Info <;> cases nativeInfo <;>
        simp [h1, h2, hf1, hf2]
    · cases cw20Info <;> cases nativeInfo <;>
        simp [h1, h2, hf1]
  · by_cases h2 : cw20Needs < (haveByKind accumulated).2
    · obtain ⟨i2, hf2⟩ := findInfoOfKind_cw20_of_pos accumulated (by omega)
      cases cw20Info <;> cases nativeInfo <;>
        simp [h1, h2, hf2]
    · cases cw20Info <;> cases nativeInfo <;>
        simp [h1, h2]

/-- Claim C1: for every stage total input `T` and split percentages summing
to 100 (with each split's path non-empty, the planner's well-formedness
requirement), the stage planner succeeds and the per-split dispatch
amounts — `floor(T * percent_i / 100)` for every split but the last and
the remainder for the last — sum to exactly `T`: the full input is
dispatched with no rounding dust lost.  (The `u128Max` hypothesis records
the bound under which the source's `Uint128` arithmetic computes these
values rather than aborting.) -/
theorem C1_split_allocation_conserves_total (accs : List Asset) (st : Stage)
    (hsum : sumPercents st.splits = 100)
    (hpaths : ∀ s ∈ st.splits, s.path ≠ [])
    (hfits : totalHave accs ≤ u128Max) :
    ∃ stagePlan, plan_next_stage accs st = .ok stagePlan ∧
      plannedTotal stagePlan.swaps_to_execute = totalHave accs := by
  have hne : st.splits ≠ [] := by
    intro h
    rw [h] at hsum
    simp [sumPercents] at hsum
  obtain ⟨⟨nInfo, cInfo⟩, hscan⟩ := scanKindInfos_ok st.splits hpaths none none
  obtain ⟨⟨nn, cc⟩, hneeds, _⟩ := stage_needs_ok (totalHave accs) st.splits hpaths
  obtain ⟨convs, hconvs⟩ := conversionsNeeded_ok accs nInfo cInfo nn cc
  have hsub : sumPercents st.splits.dropLast ≤ sumPercents st.splits := by
    conv_rhs => rw [← List.dropLast_append_getLast hne]
    unfold sumPercents
    rw [List.map_append, List.sum_append]
    simp
  have hboundDL :
      ((st.splits.dropLast.map (fun t => multiplyRatio (totalHave accs) t.percent 100)).sum)
        ≤ totalHave accs := by
    calc ((st.splits.dropLast.map (fun t => multiplyRatio (totalHave accs) t.percent 100)).sum)
        ≤ multiplyRatio (totalHave accs) (sumPercents st.splits.dropLast) 100 :=
          floorsSum_le _ _
      _ ≤ totalHave accs := multiplyRatio_le_total _ _ (by omega)
  obtain ⟨swaps, n, c, halloc, htot⟩ :=
    allocLoop_total (totalHave accs) st.splits 0 0 hne hpaths (by omega)
  have hplanned : plannedTotal swaps = totalHave accs := by
    have := allocLoop_accounting (totalHave accs) st.splits 0 0 swaps n c halloc
    omega
  refine ⟨⟨swaps, convs⟩, ?_, hplanned⟩
  unfold plan_next_stage
  rw [hscan]
  simp only [totalHave] at hneeds hconvs halloc
  simp only [hneeds, hconvs, halloc]

/-- Witness for C1: a 30/70 stage over 101 native units is planned in full. -/
theorem C1_witness :
    ∃ stagePlan,
      plan_next_stage [⟨.nativeToken "inj", 101⟩]
        ⟨[⟨[.ammSwap ⟨"p1", .nativeToken "inj", .nativeToken "usdt"⟩], 30⟩,
          ⟨[.ammSwap ⟨"p2", .nativeToken "inj", .token "shroom"⟩], 70⟩]⟩ = .ok stagePlan ∧
      plannedTotal stagePlan.swaps_to_execute =
        totalHave [⟨.nativeToken "inj", 101⟩] :=
  C1_split_allocation_conserves_total _ _ (by decide) (by decide) (by decide)

/-- Counterexample for C4: with 101 units held and a 50/50 next stage whose
splits require different representations, the per-kind needs computed by
the planner are (50, 50) — the last split got a floor, not the remainder —
so the needs sum to 100, not the held total 101. -/
theorem C4_counterexample :
    stage_needs 101
      [⟨[.ammSwap ⟨"p1", .nativeToken "inj", .nativeToken "usdt"⟩], 50⟩,
       ⟨[.ammSwap ⟨"p2", .token "shroom", .nativeToken "usdt"⟩], 50⟩] = .ok (50, 50) ∧
      (50 + 50 ≠ 101) := by
  exact ⟨rfl, by decide⟩

/-- Claim C4 (amended): the reconciler's per-kind `needs` are computed by
plain floor allocation — every split, the last included, contributes
`floor(T * percent_i / 100)` classified by its required input
representation — so the two kinds' needs sum to the sum of those floors,
which is at most `T` (percentages summing to at most 100) and can fall
short of `T` by the rounding dust. -/
theorem C4_needs_floor_allocation (total : Nat) (splits : List Split)
    (hpaths : ∀ s ∈ splits, s.path ≠ [])
    (hsum : sumPercents splits ≤ 100) :
    ∃ nc, stage_needs total splits = .ok nc ∧
      nc.1 + nc.2 = ((splits.map (fun s => multiplyRatio total s.percent 100)).sum) ∧
      nc.1 + nc.2 ≤ total := by
  obtain ⟨nc, hok, heq⟩ := stage_needs_ok total splits hpaths
  refine ⟨nc, hok, heq, ?_⟩
  calc nc.1 + nc.2 = _ := heq
    _ ≤ multiplyRatio total (sumPercents splits) 100 := floorsSum_le _ _
    _ ≤ total := multiplyRatio_le_total _ _ hsum

/-- Witness for the amended C4. -/
theorem C4_witness :
    ∃ nc, stage_needs 101
        [⟨[.ammSwap ⟨"p1", .nativeToken "inj", .nativeToken "usdt"⟩], 50⟩,
         ⟨[.ammSwap ⟨"p2", .token "shroom", .nativeToken "usdt"⟩], 50⟩] = .ok nc ∧
      nc.1 + nc.2 =
        (([⟨[.ammSwap ⟨"p1", .nativeToken "inj", .nativeToken "usdt"⟩], 50⟩,
           ⟨[.ammSwap ⟨"p2", .token "shroom", .nativeToken "usdt"⟩], 50⟩] :
            List Split).map (fun s => multiplyRatio 101 s.percent 100)).sum ∧
      nc.1 + nc.2 ≤ 101 :=
  C4_needs_floor_allocation 101 _ (by decide) (by decide)

/-! ### Lemmas about final settlement -/

theorem finalScan_all_same (target : AssetInfo) (cfg : Config) (env : EnvM) (id : Nat)
    (assets : List Asset) (h : ∀ x ∈ assets, x.info = target) :
    finalScan target cfg env id assets = ((assets.map Asset.amount).sum, []) := by
  induction assets with
  | nil => simp [finalScan]
  | cons a rest ih =>
    have ha : a.info = target := h a (by simp)
    have hr := ih (fun x hx => h x (by simp [hx]))
    simp [finalScan, hr, ha]

theorem finalScan_mismatch (target : AssetInfo) (cfg : Config) (env : EnvM) (id : Nat)
    (assets : List Asset) (h : ∃ x ∈ assets, x.info ≠ target) :
    (finalScan target cfg env id assets).2 ≠ [] := by
  induction assets with
  | nil => simp at h
  | cons a rest ih =>
    by_cases ha : a.info = target
    · have hx : ∃ x ∈ rest, x.info ≠ target := by
        obtain ⟨x, hx, hne⟩ := h
        rcases List.mem_cons.mp hx with hxa | hxr
        · exact absurd (hxa ▸ hne) (by simp [ha])
        · exact ⟨x, hxr, hne⟩
      have := ih hx
      simp only [finalScan]
      rcases hfs : finalScan target cfg env id rest with ⟨ready, subs⟩
      rw [hfs] at this
      simp [ha, this]
    · simp only [finalScan]
      rcases hfs : finalScan target cfg env id rest with ⟨ready, subs⟩
      simp [ha]

/-- Claim C2: final settlement raises `MinimumReceiveNotMet` iff the
settled total is strictly below the plan's `minimum_receive`: an empty
accumulation (total zero) fails exactly when the minimum is positive; a
same-representation accumulation settles immediately against the sum of
its amounts; a mixed accumulation succeeds for now (no check yet); and a
final-conversion callback performs the check exactly when it is the last
expected one. -/
theorem C2_minimum_receive_iff (deps : Deps) (env : EnvM) (stor : Storage) (id : Nat)
    (st : ExecutionState) (plan : RoutePlan) :
    (st.accumulated_assets = [] →
      (handle_final_stage deps env stor id st plan = .error .minimumReceiveNotMet ↔
        0 < plan.minimum_receive)) ∧
    (∀ a rest, st.accumulated_assets = a :: rest →
      (∀ x ∈ st.accumulated_assets, x.info = a.info) →
      (handle_final_stage deps env stor id st plan = .error .minimumReceiveNotMet ↔
        ((st.accumulated_assets.map Asset.amount).sum < plan.minimum_receive))) ∧
    (∀ a rest, st.accumulated_assets = a :: rest →
      (∃ x ∈ st.accumulated_assets, x.info ≠ a.info) →
      ∃ out, handle_final_stage deps env stor id st plan = .ok out) ∧
    (∀ msg converted running rest,
      parse_amount_from_conversion_reply msg env = .ok converted →
      st.accumulated_assets = running :: rest →
      st.replies_expected = 1 →
      (handle_final_conversion_reply deps env stor msg st plan =
          .error .minimumReceiveNotMet ↔
        running.amount + converted < plan.minimum_receive)) ∧
    (∀ msg converted running rest,
      parse_amount_from_conversion_reply msg env = .ok converted →
      st.accumulated_assets = running :: rest →
      2 ≤ st.replies_expected →
      ∃ out, handle_final_conversion_reply deps env stor msg st plan = .ok out) := by
  refine ⟨?_, ?_, ?_, ?_, ?_⟩
  · intro hacc
    simp only [handle_final_stage, hacc]
    by_cases hmin : plan.minimum_receive = 0
    · simp [hmin]
    · simp only [hmin, ne_eq, not_false_iff, if_true]
      constructor
      · intro _; omega
      · intro _; trivial
  · intro a rest hacc hsame
    rw [hacc] at hsame
    simp only [handle_final_stage, hacc]
    rw [finalScan_all_same a.info deps.config env id (a :: rest) hsame]
    simp only [List.isEmpty_nil, if_true]
    by_cases hlt : ((a :: rest).map Asset.amount).sum < plan.minimum_receive
    · simp [hlt, hacc]
    · simp only [hlt, if_false, hacc]
      constructor
      · intro h; exact absurd h (by split <;> simp)
      · intro h; exact h.elim
  · intro a rest hacc hmix
    rw [hacc] at hmix
    simp only [handle_final_stage, hacc]
    have hne := finalScan_mismatch a.info deps.config env id (a :: rest) hmix
    rcases hfs : finalScan a.info deps.config env id (a :: rest) with ⟨ready, subs⟩
    rw [hfs] at hne
    simp only at hne
    simp [List.isEmpty_eq_true, hne]
  · intro msg converted running rest hparse hacc hone
    by_cases hlt : running.amount + converted < plan.minimum_receive
    · have hres : handle_final_conversion_reply deps env stor msg st plan =
          .error .minimumReceiveNotMet := by
        simp [handle_final_conversion_reply, hparse, hacc, hone, u64Dec, hlt]
      rw [hres]
      simp [hlt]
    · have hres : ∃ out, handle_final_conversion_reply deps env stor msg st plan =
          .ok out := by
        simp only [handle_final_conversion_reply, hparse, hacc, hone, u64Dec]
        norm_num
        rw [if_neg hlt]
        split <;> exact ⟨_, _, rfl⟩
      obtain ⟨out, hres⟩ := hres
      rw [hres]
      simp [hlt]
  · intro msg converted running rest hparse hacc htwo
    simp only [handle_final_conversion_reply, hparse, hacc, u64Dec]
    have hnz : st.replies_expected ≠ 0 := by omega
    have hpos : 0 < st.replies_expected - 1 := by omega
    simp [hnz, hpos]

/-- Witness for C2: with nothing accumulated and a positive minimum, final
settlement fails with `MinimumReceiveNotMet`. -/
theorem C2_witness :
    handle_final_stage
      ⟨⟨"adm", "adapter", "fc"⟩, fun _ => none, fun _ _ _ _ => 0⟩ ⟨"agg"⟩
      ⟨[], [], none⟩ 7 ⟨.swaps, 1, 0, [], [], none⟩ ⟨"alice", 5, []⟩ =
      .error .minimumReceiveNotMet :=
  ((C2_minimum_receive_iff _ _ _ _ _ _).1 rfl).mpr (by decide)

/-! ### Lemmas about state deletion -/

theorem mapLoad_mapRemove {α : Type} (m : List (Nat × α)) (k : Nat) :
    mapLoad (mapRemove m k) k = none := by
  unfold mapLoad mapRemove
  have hfind : (m.filter (fun p => p.1 ≠ k)).find? (fun p => p.1 == k) = none := by
    rw [List.find?_eq_none]
    intro p hp
    have h2 := (List.mem_filter.mp hp).2
    simp at h2 ⊢
    exact h2
  rw [hfind]
  rfl

/-- Claim C9: on terminal success (the branches that report
`aggregate_swap_complete`) both the `ExecutionState` and the `RoutePlan`
for the execution id are deleted, and any further callback carrying that
id fails with the storage-load error rather than double-accumulating. -/
theorem C9_terminal_success_deletes_state (deps : Deps) (env : EnvM) :
    (∀ stor id st plan stor' resp,
      handle_final_stage deps env stor id st plan = .ok (stor', resp) →
      (("action", "aggregate_swap_complete") ∈ resp.attributes ∨
       ("action", "aggregate_swap_complete_empty") ∈ resp.attributes) →
      stor'.loadExec id = none ∧ mapLoad stor'.route_plans id = none) ∧
    (∀ stor msg st plan stor' resp,
      handle_final_conversion_reply deps env stor msg st plan = .ok (stor', resp) →
      ("action", "aggregate_swap_complete") ∈ resp.attributes →
      stor'.loadExec msg.id = none ∧ mapLoad stor'.route_plans msg.id = none) ∧
    (∀ fuel stor msg, stor.loadExec msg.id = none →
      handle_reply fuel deps env stor msg = .error .notFound) := by
  refine ⟨?_, ?_, ?_⟩
  · intro stor id st plan stor' resp h hattr
    unfold handle_final_stage at h
    cases hacc : st.accumulated_assets with
    | nil =>
      rw [hacc] at h
      dsimp only at h
      split at h
      · exact Except.noConfusion h
      · injection h with h'
        injection h' with h1 h2
        subst h1
        exact ⟨mapLoad_mapRemove _ _, mapLoad_mapRemove _ _⟩
    | cons a rest =>
      rw [hacc] at h
      dsimp only at h
      rcases hfs : finalScan a.info deps.config env id (a :: rest) with ⟨ready, subs⟩
      rw [hfs] at h
      dsimp only at h
      split at h
      · split at h
        · exact Except.noConfusion h
        · injection h with h'
          injection h' with h1 h2
          subst h1
          exact ⟨mapLoad_mapRemove _ _, mapLoad_mapRemove _ _⟩
      · injection h with h'
        injection h' with h1 h2
        subst h2
        exfalso
        rcases hattr with hattr | hattr <;>
          simp [ResponseM.addAttribute, ResponseM.addSubmessages, ResponseM.empty] at hattr
  · intro stor msg st plan stor' resp h hattr
    unfold handle_final_conversion_reply at h
    cases hparse : parse_amount_from_conversion_reply msg env with
    | error e => rw [hparse] at h; exact Except.noConfusion h
    | ok converted =>
      rw [hparse] at h
      dsimp only at h
      cases hacc : st.accumulated_assets with
      | nil => rw [hacc] at h; exact Except.noConfusion h
      | cons running rest =>
        rw [hacc] at h
        dsimp only at h
        cases hdec : u64Dec st.replies_expected with
        | error e => rw [hdec] at h; exact Except.noConfusion h
        | ok repliesLeft =>
          rw [hdec] at h
          dsimp only at h
          split at h
          · injection h with h'
            injection h' with h1 h2
            subst h2
            exfalso
            simp [ResponseM.addAttribute, ResponseM.empty] at hattr
          · split at h
            · exact Except.noConfusion h
            · injection h with h'
              injection h' with h1 h2
              subst h1
              exact ⟨mapLoad_mapRemove _ _, mapLoad_mapRemove _ _⟩
  · intro fuel stor msg hnone
    unfold handle_reply
    rw [hnone]

/-- Witness for C9: a callback for an id with no stored execution state
fails with the storage-load error. -/
theorem C9_witness :
    handle_reply 5 ⟨⟨"adm", "adapter", "fc"⟩, fun _ => none, fun _ _ _ _ => 0⟩ ⟨"agg"⟩
      ⟨[], [], none⟩ ⟨3, .ok []⟩ = .error .notFound :=
  (C9_terminal_success_deletes_state _ _).2.2 5 ⟨[], [], none⟩ ⟨3, .ok []⟩ rfl

/-- Counterexample for C3: in the Conversions phase a callback whose
submessage result is an outright error (no events, nothing parseable) is
accepted: the handler decrements the counter and reports
`accumulating_conversion_outputs` instead of raising any parse error, so
no conversion output amount was parsed from the payload. -/
theorem C3_counterexample :
    ∃ out,
      handle_reply 5 ⟨⟨"adm", "adapter", "fc"⟩, fun _ => none, fun _ _ _ _ => 0⟩ ⟨"agg"⟩
        ⟨[(1, ⟨.conversions, 1, 2, [], [⟨.ammSwap ⟨"p1", .nativeToken "inj",
            .nativeToken "usdt"⟩, 50⟩], none⟩)],
         [(1, ⟨"alice", 0, []⟩)], none⟩
        ⟨1, .err "submessage failed"⟩ = .ok out ∧
      out.2.attributes = [("action", "accumulating_conversion_outputs")] :=
  ⟨_, rfl, rfl⟩

/-- Claim C3 (amended): the Conversions-phase handler never parses the
callback payload: its result depends only on the reply id, so any two
payloads with the same id (well-formed or not) are handled identically —
it just decrements `replies_expected` and, on the last reply, dispatches
the stored `pending_swaps` with their planner-fixed amounts. -/
theorem C3_conversion_reply_ignores_payload (fuel : Nat) (deps : Deps) (env : EnvM)
    (stor : Storage) (st : ExecutionState) (plan : RoutePlan) (r1 r2 : ReplyM)
    (hid : r1.id = r2.id) :
    handle_conversion_reply fuel deps env stor r1 st plan =
      handle_conversion_reply fuel deps env stor r2 st plan := by
  unfold handle_conversion_reply
  rw [hid]

/-- Witness for the amended C3: a failed result and a non-empty transfer
event are handled identically. -/
theorem C3_witness :
    handle_conversion_reply 5
      ⟨⟨"adm", "adapter", "fc"⟩, fun _ => none, fun _ _ _ _ => 0⟩ ⟨"agg"⟩
      ⟨[], [], none⟩ ⟨1, .err "boom"⟩
      ⟨.conversions, 1, 2, [], [], none⟩ ⟨"alice", 0, []⟩ =
    handle_conversion_reply 5
      ⟨⟨"adm", "adapter", "fc"⟩, fun _ => none, fun _ _ _ _ => 0⟩ ⟨"agg"⟩
      ⟨[], [], none⟩ ⟨1, .ok [⟨"transfer", [⟨"amount", "123inj"⟩]⟩]⟩
      ⟨.conversions, 1, 2, [], [], none⟩ ⟨"alice", 0, []⟩ :=
  C3_conversion_reply_ignores_payload 5 _ _ _ _ _ _ _ rfl

theorem checkedU8Sum_some (ps : List Nat) (t : Nat) (h : checkedU8Sum ps = some t) :
    t = ps.sum := by
  unfold checkedU8Sum at h
  split at h
  · exact (Option.some.injEq _ _ ▸ h).symm
  · exact Option.noConfusion h

/-- Counterexample for C7: stage-0 percentages 100, 100, 100, 56 — each an
integer in the 0-100 range — sum to 356, which overflows the u8
accumulator, so submission is rejected with the checked-arithmetic
overflow abort, not with `InvalidPercentageSum`. -/
theorem C7_counterexample :
    execute_aggregate_swaps_internal 5
      ⟨⟨"adm", "adapter", "fc"⟩, fun _ => none, fun _ _ _ _ => 0⟩ ⟨"agg"⟩
      ⟨[], [], none⟩
      [⟨[⟨[.ammSwap ⟨"p1", .nativeToken "inj", .nativeToken "usdt"⟩], 100⟩,
         ⟨[.ammSwap ⟨"p1", .nativeToken "inj", .nativeToken "usdt"⟩], 100⟩,
         ⟨[.ammSwap ⟨"p1", .nativeToken "inj", .nativeToken "usdt"⟩], 100⟩,
         ⟨[.ammSwap ⟨"p1", .nativeToken "inj", .nativeToken "usdt"⟩], 56⟩]⟩]
      none ⟨.nativeToken "inj", 1000⟩ "alice" = .error .overflow ∧
      ContractError.overflow ≠ ContractError.invalidPercentageSum := by
  exact ⟨rfl, by decide⟩

/-- Claim C7 (amended): stage-0 validation computes the `u8` sum of the
split percentages with checked arithmetic; if the sum fits in `u8` and
differs from 100 the submission is rejected with `InvalidPercentageSum`,
if it overflows `u8` the submission aborts with the arithmetic overflow
error, and hence submission passes the check only when the true integer
sum is exactly 100. -/
theorem C7_stage0_percent_check (fuel : Nat) (deps : Deps) (env : EnvM) (stor : Storage)
    (first : Stage) (rest : List Stage) (minStr : Option String) (offer : Asset)
    (initiator : String) (hoffer : offer.amount ≠ 0) :
    (∀ t, checkedU8Sum (first.splits.map Split.percent) = some t → t ≠ 100 →
      execute_aggregate_swaps_internal fuel deps env stor (first :: rest) minStr offer
        initiator = .error .invalidPercentageSum) ∧
    (checkedU8Sum (first.splits.map Split.percent) = none →
      execute_aggregate_swaps_internal fuel deps env stor (first :: rest) minStr offer
        initiator = .error .overflow) ∧
    (sumPercents first.splits ≠ 100 →
      execute_aggregate_swaps_internal fuel deps env stor (first :: rest) minStr offer
        initiator = .error .invalidPercentageSum ∨
      execute_aggregate_swaps_internal fuel deps env stor (first :: rest) minStr offer
        initiator = .error .overflow) := by
  refine ⟨?_, ?_, ?_⟩
  · intro t hsum hne
    unfold execute_aggregate_swaps_internal
    rw [if_neg hoffer]
    dsimp only
    rw [hsum]
    dsimp only
    rw [if_pos hne]
  · intro hsum
    unfold execute_aggregate_swaps_internal
    rw [if_neg hoffer]
    dsimp only
    rw [hsum]
  · intro hne
    cases hsum : checkedU8Sum (first.splits.map Split.percent) with
    | none =>
      right
      unfold execute_aggregate_swaps_internal
      rw [if_neg hoffer]
      dsimp only
      rw [hsum]
    | some t =>
      left
      have ht : t = sumPercents first.splits := checkedU8Sum_some _ _ hsum
      unfold execute_aggregate_swaps_internal
      rw [if_neg hoffer]
      dsimp only
      rw [hsum]
      dsimp only
      rw [if_pos (by omega)]

/-- Witness for the amended C7: a 60/30 stage 0 is rejected with
`InvalidPercentageSum`. -/
theorem C7_witness :
    execute_aggregate_swaps_internal 5
      ⟨⟨"adm", "adapter", "fc"⟩, fun _ => none, fun _ _ _ _ => 0⟩ ⟨"agg"⟩
      ⟨[], [], none⟩
      [⟨[⟨[.ammSwap ⟨"p1", .nativeToken "inj", .nativeToken "usdt"⟩], 60⟩,
         ⟨[.ammSwap ⟨"p2", .nativeToken "inj", .nativeToken "usdt"⟩], 30⟩]⟩]
      none ⟨.nativeToken "inj", 1000⟩ "alice" = .error .invalidPercentageSum :=
  (C7_stage0_percent_check 5 _ _ _ _ _ _ _ _ (by decide)).1 90 rfl (by decide)

/-- Claim C10: an order-book dispatch with a zero tick size is rejected;
with a nonzero tick size `t` the funds attached to the venue call are
`(a / t) * t` in truncating integer arithmetic — a multiple of `t`, at
most `a` — and when that rounds to zero the returned message is a no-op
self-call carrying no funds, not a venue call. -/
theorem C10_orderbook_tick_rounding (deps : Deps) (env : EnvM) (obOp : OrderbookSwapOp)
    (amount : Nat) (offerDenom targetDenom : String)
    (hoffer : obOp.offer_asset_info = .nativeToken offerDenom)
    (hask : obOp.ask_asset_info = .nativeToken targetDenom) :
    (obOp.min_quantity_tick_size = 0 →
      ∀ info, create_swap_cosmos_msg deps (.orderbookSwap obOp) info amount env =
        .error (.std "min_quantity_tick_size cannot be zero")) ∧
    (obOp.min_quantity_tick_size ≠ 0 →
      amount / obOp.min_quantity_tick_size * obOp.min_quantity_tick_size = 0 →
      ∀ info, create_swap_cosmos_msg deps (.orderbookSwap obOp) info amount env =
        .ok (.wasmExecute env.contract_address .emptyMsg [])) ∧
    (obOp.min_quantity_tick_size ≠ 0 →
      amount / obOp.min_quantity_tick_size * obOp.min_quantity_tick_size ≠ 0 →
      ∀ info, ∃ payload,
        create_swap_cosmos_msg deps (.orderbookSwap obOp) info amount env =
          .ok (.wasmExecute obOp.swap_contract payload
            [(offerDenom,
              amount / obOp.min_quantity_tick_size * obOp.min_quantity_tick_size)]) ∧
        (amount / obOp.min_quantity_tick_size * obOp.min_quantity_tick_size)
          % obOp.min_quantity_tick_size = 0 ∧
        amount / obOp.min_quantity_tick_size * obOp.min_quantity_tick_size ≤ amount) := by
  refine ⟨?_, ?_, ?_⟩
  · intro htick info
    unfold create_swap_cosmos_msg
    dsimp only
    rw [if_pos htick]
  · intro htick hzero info
    unfold create_swap_cosmos_msg
    dsimp only
    rw [if_neg htick]
    rw [if_pos hzero]
  · intro htick hnz info
    unfold create_swap_cosmos_msg
    dsimp only
    rw [if_neg htick]
    rw [if_neg hnz, hoffer, hask]
    exact ⟨_, rfl, Nat.mul_mod_left _ _, Nat.div_mul_le_self _ _⟩

/-- Witness for C10: amount 10 with tick size 4 attaches 8 — a multiple of
the tick that is strictly less than the allocated 10, the sub-tick
remainder retained. -/
theorem C10_witness :
    (∃ payload,
      create_swap_cosmos_msg
        ⟨⟨"adm", "adapter", "fc"⟩, fun _ => none, fun _ _ _ _ => 12 * fpOne⟩
        (.orderbookSwap ⟨"ob1", .nativeToken "inj", .nativeToken "usdt", 4⟩)
        (.nativeToken "inj") 10 ⟨"agg"⟩ =
        .ok (.wasmExecute "ob1" payload [("inj", 10 / 4 * 4)]) ∧
      (10 / 4 * 4) % 4 = 0 ∧ 10 / 4 * 4 ≤ 10) ∧ 10 / 4 * 4 < 10 :=
  ⟨(C10_orderbook_tick_rounding _ _ _ 10 "inj" "usdt" rfl rfl).2.2 (by decide) (by decide)
      (.nativeToken "inj"),
    by decide⟩

/-! ### Lemmas about the Swaps-phase callback handler -/

theorem intoEvents_ok (msg : ReplyM) (events : List Event) (h : msg.result = .ok events) :
    intoEvents msg = .ok events := by
  unfold intoEvents
  rw [h]

theorem u64Dec_pos (n : Nat) (h : 0 < n) : u64Dec n = .ok (n - 1) := by
  unfold u64Dec
  rw [if_neg (by omega)]

theorem multiplyRatio_le (a p d : Nat) (hp : p ≤ d) (hd : 0 < d) :
    multiplyRatio a p d ≤ a := by
  unfold multiplyRatio
  have h1 : a * p ≤ a * d := Nat.mul_le_mul_left a hp
  have h2 : a * p / d ≤ a * d / d := Nat.div_le_div_right h1
  have h3 : a * d / d = a := Nat.mul_div_cancel a hd
  omega

theorem apply_fee_ok (entry : Option Nat) (received : Nat)
    (h : multiplyRatio received (entry.getD 0) fpOne ≤ received) :
    apply_fee entry received =
      .ok (received - multiplyRatio received (entry.getD 0) fpOne,
        multiplyRatio received (entry.getD 0) fpOne) := by
  cases entry with
  | none => simp [apply_fee, checkedSub, multiplyRatio]
  | some r =>
    simp only [Option.getD_some] at h ⊢
    unfold apply_fee checkedSub
    dsimp only
    rw [if_pos h]

/-- Full behaviour of `handle_swap_reply` when the replying operation is
the terminal hop of its path and more replies are pending: the venue fee
is deducted once, the post-fee asset is appended to the accumulation, the
counter is decremented, and the fee transfer is emitted iff the fee is
nonzero. -/
theorem handle_swap_reply_terminal_spec (fuel : Nat) (deps : Deps) (env : EnvM)
    (stor : Storage) (msg : ReplyM) (events : List Event) (ev : Event) (ca : EventAttr)
    (st : ExecutionState) (plan : RoutePlan) (stage : Stage)
    (si oi : Nat) (op : Operation) (received : Nat)
    (hmsg : msg.result = .ok events)
    (hfind : findSwapEvent events = some ev)
    (hca : ev.attributes.find? (fun a => a.key == "_contract_address") = some ca)
    (hstage : plan.stages.get? st.current_stage_index = some stage)
    (hpath : findRepliedPathInfo ca.value stage.splits 0 = some ((si, oi), op))
    (hparse : parse_amount_from_swap_reply msg = .ok received)
    (hterm : (((stage.splits.get? si).map Split.path).getD []).get? (oi + 1) = none)
    (hreplies : 1 < st.replies_expected)
    (hfee : multiplyRatio received ((deps.fee_map ca.value).getD 0) fpOne ≤ received) :
    handle_swap_reply fuel deps env stor msg st plan =
      .ok (stor.saveExec msg.id
        { st with
          accumulated_assets := st.accumulated_assets ++
            [⟨get_operation_output op,
              received - multiplyRatio received ((deps.fee_map ca.value).getD 0) fpOne⟩],
          replies_expected := st.replies_expected - 1 },
        if multiplyRatio received ((deps.fee_map ca.value).getD 0) fpOne ≠ 0 then
          ⟨[], [create_send_msg deps.config.fee_collector (get_operation_output op)
                 (multiplyRatio received ((deps.fee_map ca.value).getD 0) fpOne)],
            [("action", "accumulating_path_outputs"),
             ("fee_collected",
               natToString (multiplyRatio received ((deps.fee_map ca.value).getD 0) fpOne)),
             ("fee_pool", ca.value)]⟩
        else ⟨[], [], [("action", "accumulating_path_outputs")]⟩) := by
  have hie := intoEvents_ok msg events hmsg
  have happ := apply_fee_ok (deps.fee_map ca.value) received hfee
  have hdec := u64Dec_pos st.replies_expected (by omega)
  unfold handle_swap_reply
  rw [hie]
  dsimp only
  rw [hfind]
  dsimp only
  rw [hca]
  dsimp only
  rw [hstage]
  dsimp only
  rw [hpath]
  dsimp only
  rw [hparse]
  dsimp only
  rw [hterm]
  dsimp only
  rw [happ]
  dsimp only
  rw [hdec]
  dsimp only
  rw [if_pos (show 0 < st.replies_expected - 1 by omega)]
  dsimp only
  by_cases hf : multiplyRatio received ((deps.fee_map ca.value).getD 0) fpOne ≠ 0
  · rw [if_pos hf, if_pos hf]
    simp [ResponseM.empty, ResponseM.addAttribute, ResponseM.addMessage]
  · rw [if_neg hf, if_neg hf]
    simp [ResponseM.empty, ResponseM.addAttribute]

/-- Full behaviour of `handle_swap_reply` when the replying operation has
a successor hop whose required input matches: the next hop is dispatched
with the full received amount, no fee is looked up or deducted, and the
state is persisted unchanged. -/
theorem handle_swap_reply_midpath_spec (fuel : Nat) (deps : Deps) (env : EnvM)
    (stor : Storage) (msg : ReplyM) (events : List Event) (ev : Event) (ca : EventAttr)
    (st : ExecutionState) (plan : RoutePlan) (stage : Stage)
    (si oi : Nat) (op nextOp : Operation) (received : Nat) (m : CosmosMsgM)
    (hmsg : msg.result = .ok events)
    (hfind : findSwapEvent events = some ev)
    (hca : ev.attributes.find? (fun a => a.key == "_contract_address") = some ca)
    (hstage : plan.stages.get? st.current_stage_index = some stage)
    (hpath : findRepliedPathInfo ca.value stage.splits 0 = some ((si, oi), op))
    (hparse : parse_amount_from_swap_reply msg = .ok received)
    (hnext : (((stage.splits.get? si).map Split.path).getD []).get? (oi + 1) = some nextOp)
    (hinfo : get_operation_output op = get_operation_input nextOp)
    (hcreate : create_swap_cosmos_msg deps nextOp (get_operation_output op) received env
      = .ok m) :
    handle_swap_reply fuel deps env stor msg st plan =
      .ok (stor.saveExec msg.id st,
        ⟨[⟨m, msg.id⟩], [],
         [("action", "proceeding_to_next_op_in_path"), ("split_index", natToString si),
          ("op_index", natToString (oi + 1))]⟩) := by
  have hie := intoEvents_ok msg events hmsg
  unfold handle_swap_reply
  rw [hie]
  dsimp only
  rw [hfind]
  dsimp only
  rw [hca]
  dsimp only
  rw [hstage]
  dsimp only
  rw [hpath]
  dsimp only
  rw [hparse]
  dsimp only
  rw [hnext]
  dsimp only
  rw [if_neg (by simp [hinfo])]
  rw [hcreate]
  dsimp only
  simp [ResponseM.empty, ResponseM.addAttribute, ResponseM.addSubmessage]

/-- Counterexample for C8: a Swaps-phase callback whose result has no
events at all — no completion record of any shape — is not a parsing
error: the handler continues with a zero-value completion, decrementing
the expected-reply counter. -/
theorem C8_counterexample :
    ∃ out,
      handle_swap_reply 5
        ⟨⟨"adm", "adapter", "fc"⟩, fun _ => none, fun _ _ _ _ => 0⟩ ⟨"agg"⟩
        ⟨[], [], none⟩ ⟨1, .ok []⟩
        ⟨.swaps, 0, 2, [], [], none⟩ ⟨"alice", 0, []⟩ = .ok out ∧
      out.2.attributes =
        [("action", "accumulating_path_outputs"), ("info", "zero_value_path_completed")] :=
  ⟨_, rfl, rfl⟩

/-- Claim C8 (amended): a Swaps-phase callback whose result contains no
event carrying a `return_amount` or `swap_final_amount` attribute is not
a parse error: the handler treats it as a zero-value path completion,
decrementing `replies_expected` and accumulating nothing (advancing the
stage when it was the last expected reply). -/
theorem C8_missing_event_is_zero_value (fuel : Nat) (deps : Deps) (env : EnvM)
    (stor : Storage) (msg : ReplyM) (events : List Event)
    (st : ExecutionState) (plan : RoutePlan)
    (hmsg : msg.result = .ok events)
    (hnoevent : ∀ e ∈ events,
      ¬(strStartsWith e.ty "wasm" = true ∧
        (e.attributes.any (fun a => a.key == "return_amount") = true ∨
         e.attributes.any (fun a => a.key == "swap_final_amount") = true)))
    (hreplies : 1 < st.replies_expected) :
    handle_swap_reply fuel deps env stor msg st plan =
      .ok (stor.saveExec msg.id { st with replies_expected := st.replies_expected - 1 },
        ⟨[], [],
         [("action", "accumulating_path_outputs"),
          ("info", "zero_value_path_completed")]⟩) := by
  have hie := intoEvents_ok msg events hmsg
  have hnone : findSwapEvent events = none := by
    unfold findSwapEvent
    rw [List.find?_eq_none]
    intro e he
    rw [List.mem_reverse] at he
    have h := hnoevent e he
    simp only [Bool.and_eq_true, Bool.or_eq_true] at h ⊢
    tauto
  have hdec := u64Dec_pos st.replies_expected (by omega)
  unfold handle_swap_reply
  rw [hie]
  dsimp only
  rw [hnone]
  dsimp only
  rw [hdec]
  dsimp only
  rw [if_pos (show 0 < st.replies_expected - 1 by omega)]
  simp [ResponseM.empty, ResponseM.addAttribute]

/-- Witness for the amended C8: an eventless result with two replies
expected decrements the counter and continues. -/
theorem C8_witness :
    handle_swap_reply 5
      ⟨⟨"adm", "adapter", "fc"⟩, fun _ => none, fun _ _ _ _ => 0⟩ ⟨"agg"⟩
      ⟨[], [], none⟩ ⟨1, .ok []⟩
      ⟨.swaps, 0, 2, [], [], none⟩ ⟨"alice", 0, []⟩ =
      .ok (Storage.saveExec ⟨[], [], none⟩ 1 ⟨.swaps, 0, 1, [], [], none⟩,
        ⟨[], [],
         [("action", "accumulating_path_outputs"),
          ("info", "zero_value_path_completed")]⟩) :=
  C8_missing_event_is_zero_value 5 _ _ _ _ [] _ _ rfl (by simp) (by decide)

/-- Counterexample for C5: a venue fee of 10 percent is configured for
`pool1`, and `pool1` completes the first hop of a two-hop split path with
output 1000; the handler forwards the full 1000 to the next hop with no
fee transfer appended — the fee is not applied to the intermediate hop of
a multi-hop split path. -/
theorem C5_counterexample :
    handle_swap_reply 5
      ⟨⟨"adm", "adapter", "fc"⟩,
        fun a => if a = "pool1" then some 100000000000000000 else none,
        fun _ _ _ _ => 0⟩ ⟨"agg"⟩
      ⟨[], [], none⟩
      ⟨1, .ok [⟨"wasm", [⟨"_contract_address", "pool1"⟩, ⟨"return_amount", "1000"⟩]⟩]⟩
      ⟨.swaps, 0, 1, [], [], none⟩
      ⟨"alice", 0,
        [⟨[⟨[.ammSwap ⟨"pool1", .nativeToken "inj", .nativeToken "usdt"⟩,
             .ammSwap ⟨"pool2", .nativeToken "usdt", .nativeToken "inj"⟩], 100⟩]⟩]⟩ =
      .ok (⟨[(1, ⟨.swaps, 0, 1, [], [], none⟩)], [], none⟩,
        ⟨[⟨.wasmExecute "pool2" (.ammSwap (.nativeToken "usdt") 1000 "agg")
            [("usdt", 1000)], 1⟩],
         [],
         [("action", "proceeding_to_next_op_in_path"), ("split_index", "0"),
          ("op_index", "1")]⟩) ∧
    (fun a => if a = "pool1" then some 100000000000000000 else none) "pool1" =
      some 100000000000000000 := by
  exact ⟨by decide, rfl⟩

/-- Claim C5 (amended): the venue fee is applied exactly once to the
output of each split path's terminal swap operation, before the post-fee
asset is accumulated, with the fee transfer appended iff the fee is
nonzero; an intermediate hop of a multi-hop split path dispatches its
full output to the next hop with no fee lookup or deduction. -/
theorem C5_fee_on_terminal_hop_only :
    (∀ (fuel : Nat) (deps : Deps) (env : EnvM) (stor : Storage) (msg : ReplyM)
        (events : List Event) (ev : Event) (ca : EventAttr)
        (st : ExecutionState) (plan : RoutePlan) (stage : Stage)
        (si oi : Nat) (op : Operation) (received : Nat),
      msg.result = .ok events →
      findSwapEvent events = some ev →
      ev.attributes.find? (fun a => a.key == "_contract_address") = some ca →
      plan.stages.get? st.current_stage_index = some stage →
      findRepliedPathInfo ca.value stage.splits 0 = some ((si, oi), op) →
      parse_amount_from_swap_reply msg = .ok received →
      (((stage.splits.get? si).map Split.path).getD []).get? (oi + 1) = none →
      1 < st.replies_expected →
      multiplyRatio received ((deps.fee_map ca.value).getD 0) fpOne ≤ received →
      ∃ resp,
        handle_swap_reply fuel deps env stor msg st plan =
          .ok (stor.saveExec msg.id
            { st with
              accumulated_assets := st.accumulated_assets ++
                [⟨get_operation_output op,
                  received -
                    multiplyRatio received ((deps.fee_map ca.value).getD 0) fpOne⟩],
              replies_expected := st.replies_expected - 1 }, resp) ∧
        resp.messages =
          (if multiplyRatio received ((deps.fee_map ca.value).getD 0) fpOne ≠ 0 then
            [create_send_msg deps.config.fee_collector (get_operation_output op)
              (multiplyRatio received ((deps.fee_map ca.value).getD 0) fpOne)]
          else [])) ∧
    (∀ (fuel : Nat) (deps : Deps) (env : EnvM) (stor : Storage) (msg : ReplyM)
        (events : List Event) (ev : Event) (ca : EventAttr)
        (st : ExecutionState) (plan : RoutePlan) (stage : Stage)
        (si oi : Nat) (op nextOp : Operation) (received : Nat) (m : CosmosMsgM),
      msg.result = .ok events →
      findSwapEvent events = some ev →
      ev.attributes.find? (fun a => a.key == "_contract_address") = some ca →
      plan.stages.get? st.current_stage_index = some stage →
      findRepliedPathInfo ca.value stage.splits 0 = some ((si, oi), op) →
      parse_amount_from_swap_reply msg = .ok received →
      (((stage.splits.get? si).map Split.path).getD []).get? (oi + 1) = some nextOp →
      get_operation_output op = get_operation_input nextOp →
      create_swap_cosmos_msg deps nextOp (get_operation_output op) received env = .ok m →
      handle_swap_reply fuel deps env stor msg st plan =
        .ok (stor.saveExec msg.id st,
          ⟨[⟨m, msg.id⟩], [],
           [("action", "proceeding_to_next_op_in_path"), ("split_index", natToString si),
            ("op_index", natToString (oi + 1))]⟩)) := by
  constructor
  · intro fuel deps env stor msg events ev ca st plan stage si oi op received
      hmsg hfind hca hstage hpath hparse hterm hreplies hfee
    have h := handle_swap_reply_terminal_spec fuel deps env stor msg events ev ca st plan
      stage si oi op received hmsg hfind hca hstage hpath hparse hterm hreplies hfee
    refine ⟨_, h, ?_⟩
    by_cases hf : multiplyRatio received ((deps.fee_map ca.value).getD 0) fpOne ≠ 0
    · rw [if_pos hf, if_pos hf]
    · rw [if_neg hf, if_neg hf]
  · intro fuel deps env stor msg events ev ca st plan stage si oi op nextOp received m
      hmsg hfind hca hstage hpath hparse hnext hinfo hcreate
    exact handle_swap_reply_midpath_spec fuel deps env stor msg events ev ca st plan
      stage si oi op nextOp received m hmsg hfind hca hstage hpath hparse hnext hinfo
      hcreate

/-- Witness for the amended C5: the two-hop scenario of the counterexample
through the mid-path conjunct. -/
theorem C5_witness :
    handle_swap_reply 5
      ⟨⟨"adm", "adapter", "fc"⟩,
        fun a => if a = "pool1" then some 100000000000000000 else none,
        fun _ _ _ _ => 0⟩ ⟨"agg"⟩
      ⟨[], [], none⟩
      ⟨1, .ok [⟨"wasm", [⟨"_contract_address", "pool1"⟩, ⟨"return_amount", "1000"⟩]⟩]⟩
      ⟨.swaps, 0, 1, [], [], none⟩
      ⟨"alice", 0,
        [⟨[⟨[.ammSwap ⟨"pool1", .nativeToken "inj", .nativeToken "usdt"⟩,
             .ammSwap ⟨"pool2", .nativeToken "usdt", .nativeToken "inj"⟩], 100⟩]⟩]⟩ =
      .ok (Storage.saveExec ⟨[], [], none⟩ 1 ⟨.swaps, 0, 1, [], [], none⟩,
        ⟨[⟨.wasmExecute "pool2" (.ammSwap (.nativeToken "usdt") 1000 "agg")
            [("usdt", 1000)], 1⟩],
         [],
         [("action", "proceeding_to_next_op_in_path"), ("split_index", natToString 0),
          ("op_index", natToString (0 + 1))]⟩) :=
  C5_fee_on_terminal_hop_only.2 5 _ _ _ _
    [⟨"wasm", [⟨"_contract_address", "pool1"⟩, ⟨"return_amount", "1000"⟩]⟩]
    ⟨"wasm", [⟨"_contract_address", "pool1"⟩, ⟨"return_amount", "1000"⟩]⟩
    ⟨"_contract_address", "pool1"⟩ _ _
    ⟨[⟨[.ammSwap ⟨"pool1", .nativeToken "inj", .nativeToken "usdt"⟩,
        .ammSwap ⟨"pool2", .nativeToken "usdt", .nativeToken "inj"⟩], 100⟩]⟩
    0 0 (.ammSwap ⟨"pool1", .nativeToken "inj", .nativeToken "usdt"⟩)
    (.ammSwap ⟨"pool2", .nativeToken "usdt", .nativeToken "inj"⟩) 1000
    (.wasmExecute "pool2" (.ammSwap (.nativeToken "usdt") 1000 "agg") [("usdt", 1000)])
    rfl (by decide) (by decide) rfl (by decide) (by decide) rfl rfl (by decide)

/-- Claim C6: the fee engine's arithmetic — a missing fee-table entry is
rate zero; for a stored rate below one, `fee = floor(gross * rate)` by
truncating fixed-point multiplication and `net = gross - fee`; whenever
the computation succeeds `net + fee = gross`; the fee truncates to zero
whenever `gross * rate` is below one fixed-point unit (rate zero
included); and on a terminal swap completion the fee transfer to the fee
collector is appended to the response exactly when the fee is nonzero. -/
theorem C6_fee_arithmetic :
    (∀ gross, apply_fee none gross = .ok (gross, 0)) ∧
    (∀ rate gross, rate < fpOne →
      apply_fee (some rate) gross =
        .ok (gross - multiplyRatio gross rate fpOne, multiplyRatio gross rate fpOne)) ∧
    (∀ entry gross net fee, apply_fee entry gross = .ok (net, fee) → net + fee = gross) ∧
    (∀ rate gross, gross * rate < fpOne → multiplyRatio gross rate fpOne = 0) ∧
    (∀ (fuel : Nat) (deps : Deps) (env : EnvM) (stor : Storage) (msg : ReplyM)
        (events : List Event) (ev : Event) (ca : EventAttr)
        (st : ExecutionState) (plan : RoutePlan) (stage : Stage)
        (si oi : Nat) (op : Operation) (received : Nat),
      msg.result = .ok events →
      findSwapEvent events = some ev →
      ev.attributes.find? (fun a => a.key == "_contract_address") = some ca →
      plan.stages.get? st.current_stage_index = some stage →
      findRepliedPathInfo ca.value stage.splits 0 = some ((si, oi), op) →
      parse_amount_from_swap_reply msg = .ok received →
      (((stage.splits.get? si).map Split.path).getD []).get? (oi + 1) = none →
      1 < st.replies_expected →
      multiplyRatio received ((deps.fee_map ca.value).getD 0) fpOne ≤ received →
      ∃ stor' resp,
        handle_swap_reply fuel deps env stor msg st plan = .ok (stor', resp) ∧
        resp.messages =
          (if multiplyRatio received ((deps.fee_map ca.value).getD 0) fpOne ≠ 0 then
            [create_send_msg deps.config.fee_collector (get_operation_output op)
              (multiplyRatio received ((deps.fee_map ca.value).getD 0) fpOne)]
          else [])) := by
  refine ⟨?_, ?_, ?_, ?_, ?_⟩
  · intro gross
    simp [apply_fee, checkedSub, multiplyRatio]
  · intro rate gross hrate
    have hle : multiplyRatio gross ((some rate).getD 0) fpOne ≤ gross := by
      simp only [Option.getD_some]
      exact multiplyRatio_le gross rate fpOne (by omega) (by norm_num [fpOne])
    have h := apply_fee_ok (some rate) gross hle
    simpa using h
  · intro entry gross net fee h
    cases entry with
    | none =>
      unfold apply_fee checkedSub at h
      dsimp only at h
      rw [if_pos (Nat.zero_le gross)] at h
      injection h with h'
      injection h' with h1 h2
      omega
    | some r =>
      unfold apply_fee checkedSub at h
      dsimp only at h
      by_cases hle : multiplyRatio gross r fpOne ≤ gross
      · rw [if_pos hle] at h
        dsimp only at h
        injection h with h'
        injection h' with h1 h2
        omega
      · rw [if_neg hle] at h
        exact Except.noConfusion h
  · intro rate gross hsmall
    unfold multiplyRatio
    exact Nat.div_eq_of_lt hsmall
  · intro fuel deps env stor msg events ev ca st plan stage si oi op received
      hmsg hfind hca hstage hpath hparse hterm hreplies hfee
    have h := handle_swap_reply_terminal_spec fuel deps env stor msg events ev ca st plan
      stage si oi op received hmsg hfind hca hstage hpath hparse hterm hreplies hfee
    refine ⟨_, _, h, ?_⟩
    by_cases hf : multiplyRatio received ((deps.fee_map ca.value).getD 0) fpOne ≠ 0
    · rw [if_pos hf, if_pos hf]
    · rw [if_neg hf, if_neg hf]

/-- Witness for C6: a 10 percent rate on gross 1000 yields fee 100 and
net 900, summing back to the gross. -/
theorem C6_witness :
    apply_fee (some 100000000000000000) 1000 =
      .ok (1000 - multiplyRatio 1000 100000000000000000 fpOne,
        multiplyRatio 1000 100000000000000000 fpOne) :=
  C6_fee_arithmetic.2.1 100000000000000000 1000 (by norm_num [fpOne])

end DexAgg
